import Mathlib

/-!
Shallow embedding of the health-tracker subsystem (`health/tracker.go`).

The Go `sync.Map` stores are modelled as association lists with unique-key
update semantics; per-field atomics become plain record fields (all updates in
the claims are sequential).  Telemetry and logging calls have no effect on the
tracker state and are omitted.  `atomic.Int64` becomes `Int`, the opaque
quantile accumulator becomes a list of rational samples (the claims use only
its `Add`/`Reset` interface), and `atomic.Value` for the cordon reason becomes
`Option String` (with `none` as the initial nil value).
-/

namespace Health

/-- Lookup in an association list: the value of the first pair whose key is
`k` (models `sync.Map.Load`). -/
def alookup {α β : Type} [DecidableEq α] (k : α) : List (α × β) → Option β
  | [] => none
  | (a, b) :: rest => if k = a then some b else alookup k rest

/-- Apply `f` to the value of every pair whose key is `k` (models a store
through the pointer obtained from `Load`; keys are unique in all reachable
states, so at most one pair is touched). -/
def aupdate {α β : Type} [DecidableEq α] (k : α) (f : β → β) : List (α × β) → List (α × β)
  | [] => []
  | (a, b) :: rest =>
      if k = a then (a, f b) :: aupdate k f rest else (a, b) :: aupdate k f rest

/-- `LoadOrStore` a default `d` followed by a store of `f` applied to the
found-or-created value (this is the shape of every `getMetrics`-then-mutate
sequence in the Go code). -/
def aupsert {α β : Type} [DecidableEq α] (k : α) (d : β) (f : β → β)
    (l : List (α × β)) : List (α × β) :=
  match alookup k l with
  | some _ => aupdate k f l
  | none => (k, f d) :: l

/-- Apply `f` to the value of every pair whose key satisfies `p` (models a
`Range` that stores through each visited entry). -/
def aupdateWhere {α β : Type} (p : α → Bool) (f : β → β)
    (l : List (α × β)) : List (α × β) :=
  l.map fun e => if p e.1 then (e.1, f e.2) else e

/-- `tripletKey` from the source: `(ups, network, method)`. -/
structure tripletKey where
  ups : String
  network : String
  method : String
deriving DecidableEq

/-- `duoKey` from the source: `(ups, network)`. -/
structure duoKey where
  ups : String
  network : String
deriving DecidableEq

/-- `NetworkMetadata`: the two head watermarks; `0` means never observed. -/
structure NetworkMetadata where
  evmLatestBlockNumber : Int := 0
  evmFinalizedBlockNumber : Int := 0
deriving DecidableEq

/-- `TrackedMetrics`: the per-key counter/state bundle. -/
structure TrackedMetrics where
  ResponseQuantiles : List Rat := []
  ErrorsTotal : Int := 0
  SelfRateLimitedTotal : Int := 0
  RemoteRateLimitedTotal : Int := 0
  RequestsTotal : Int := 0
  BlockHeadLag : Int := 0
  FinalizationLag : Int := 0
  BlockHeadLargeRollback : Int := 0
  Cordoned : Bool := false
  CordonedReason : Option String := none
deriving DecidableEq

/-- `TrackedMetrics.ErrorRate`: errors / requests, `0` when requests is `0`
(the Go float64 division on exact counter values, taken over `Rat`). -/
def TrackedMetrics.ErrorRate (m : TrackedMetrics) : Rat :=
  if m.RequestsTotal = 0 then 0
  else (m.ErrorsTotal : Rat) / (m.RequestsTotal : Rat)

/-- `TrackedMetrics.Reset`: the per-record window reset.  Mirrors the source
exactly: the four counters and the two lag gauges are zeroed, the quantile
accumulator is reset, cordon state is cleared; `BlockHeadLargeRollback` is
not stored to. -/
def TrackedMetrics.Reset (m : TrackedMetrics) : TrackedMetrics :=
  { m with
    ErrorsTotal := 0
    RequestsTotal := 0
    SelfRateLimitedTotal := 0
    RemoteRateLimitedTotal := 0
    BlockHeadLag := 0
    FinalizationLag := 0
    ResponseQuantiles := []
    Cordoned := false
    CordonedReason := some "" }

/-- `Tracker`: the two concurrent stores, as association lists. -/
structure Tracker where
  metrics : List (tripletKey × TrackedMetrics) := []
  metadata : List (duoKey × NetworkMetadata) := []
deriving DecidableEq

/-- `NewTracker`: both stores empty. -/
def Tracker.empty : Tracker := {}

/-- `Tracker.getKeys`: the five rollup expansions of a concrete triplet. -/
def getKeys (ups network method : String) : List tripletKey :=
  [⟨ups, network, method⟩,
   ⟨ups, network, "*"⟩,
   ⟨ups, "*", "*"⟩,
   ⟨"*", network, method⟩,
   ⟨"*", network, "*"⟩]

/-- `Tracker.getMetrics`: fetch or create the record for `k`; returns the
found-or-created record together with the (possibly grown) store. -/
def Tracker.getMetrics (t : Tracker) (k : tripletKey) : TrackedMetrics × Tracker :=
  match alookup k t.metrics with
  | some tm => (tm, t)
  | none => ({}, { t with metrics := (k, ({} : TrackedMetrics)) :: t.metrics })

/-- `Tracker.getMetadata`, restricted to its ensure-present effect (the reads
through the returned pointer are modelled by `latestMark`/`finalizedMark`). -/
def Tracker.ensureMetadata (t : Tracker) (k : duoKey) : Tracker :=
  match alookup k t.metadata with
  | some _ => t
  | none => { t with metadata := (k, ({} : NetworkMetadata)) :: t.metadata }

/-- `evmLatestBlockNumber.Load()` through the metadata store (`0` when the
entry is absent, matching the zero value of a fresh `NetworkMetadata`). -/
def Tracker.latestMark (t : Tracker) (k : duoKey) : Int :=
  ((alookup k t.metadata).getD {}).evmLatestBlockNumber

/-- `evmFinalizedBlockNumber.Load()` through the metadata store. -/
def Tracker.finalizedMark (t : Tracker) (k : duoKey) : Int :=
  ((alookup k t.metadata).getD {}).evmFinalizedBlockNumber

/-- `evmLatestBlockNumber.Store(v)` through the metadata store. -/
def Tracker.storeLatest (t : Tracker) (k : duoKey) (v : Int) : Tracker :=
  { t with
    metadata := aupdate k (fun nm => { nm with evmLatestBlockNumber := v }) t.metadata }

/-- `evmFinalizedBlockNumber.Store(v)` through the metadata store. -/
def Tracker.storeFinalized (t : Tracker) (k : duoKey) (v : Int) : Tracker :=
  { t with
    metadata := aupdate k (fun nm => { nm with evmFinalizedBlockNumber := v }) t.metadata }

/-- `Tracker.Cordon`: get-or-create the exact record, set the flag and
store the reason. -/
def Tracker.Cordon (t : Tracker) (ups network method reason : String) : Tracker :=
  { t with
    metrics := aupsert ⟨ups, network, method⟩ ({} : TrackedMetrics)
      (fun m => { m with Cordoned := true, CordonedReason := some reason })
      t.metrics }

/-- `Tracker.Uncordon`: get-or-create the exact record, clear the flag and
store the empty reason. -/
def Tracker.Uncordon (t : Tracker) (ups network method : String) : Tracker :=
  { t with
    metrics := aupsert ⟨ups, network, method⟩ ({} : TrackedMetrics)
      (fun m => { m with Cordoned := false, CordonedReason := some "" })
      t.metrics }

/-- `Tracker.IsCordoned`: the wildcard-method record `(ups, network, "*")`
takes precedence when cordoned; otherwise the exact record's flag; absent
records are never cordoned. -/
def Tracker.IsCordoned (t : Tracker) (ups network method : String) : Bool :=
  match alookup (⟨ups, network, "*"⟩ : tripletKey) t.metrics with
  | some tm =>
      if tm.Cordoned then true
      else
        match alookup (⟨ups, network, method⟩ : tripletKey) t.metrics with
        | some tm2 => tm2.Cordoned
        | none => false
  | none =>
      match alookup (⟨ups, network, method⟩ : tripletKey) t.metrics with
      | some tm2 => tm2.Cordoned
      | none => false

/-- `Tracker.RecordUpstreamRequest`: `+1` on the request counter of all five
expanded keys, creating records as needed. -/
def Tracker.RecordUpstreamRequest (t : Tracker) (ups network method : String) : Tracker :=
  { t with
    metrics := (getKeys ups network method).foldl
      (fun ms k => aupsert k ({} : TrackedMetrics) (fun m => { m with RequestsTotal := m.RequestsTotal + 1 }) ms)
      t.metrics }

/-- `Tracker.RecordUpstreamFailure`: `+1` on the error counter of all five
expanded keys. -/
def Tracker.RecordUpstreamFailure (t : Tracker) (ups network method : String) : Tracker :=
  { t with
    metrics := (getKeys ups network method).foldl
      (fun ms k => aupsert k ({} : TrackedMetrics) (fun m => { m with ErrorsTotal := m.ErrorsTotal + 1 }) ms)
      t.metrics }

/-- `Tracker.RecordUpstreamSelfRateLimited`. -/
def Tracker.RecordUpstreamSelfRateLimited (t : Tracker) (ups network method : String) : Tracker :=
  { t with
    metrics := (getKeys ups network method).foldl
      (fun ms k => aupsert k ({} : TrackedMetrics) (fun m => { m with SelfRateLimitedTotal := m.SelfRateLimitedTotal + 1 }) ms)
      t.metrics }

/-- `Tracker.RecordUpstreamRemoteRateLimited`. -/
def Tracker.RecordUpstreamRemoteRateLimited (t : Tracker) (ups network method : String) : Tracker :=
  { t with
    metrics := (getKeys ups network method).foldl
      (fun ms k => aupsert k ({} : TrackedMetrics) (fun m => { m with RemoteRateLimitedTotal := m.RemoteRateLimitedTotal + 1 }) ms)
      t.metrics }

/-- `Tracker.RecordUpstreamDuration`: feed the sample to the quantile
accumulator of all five expanded keys. -/
def Tracker.RecordUpstreamDuration (t : Tracker) (ups network method : String) (sec : Rat) : Tracker :=
  { t with
    metrics := (getKeys ups network method).foldl
      (fun ms k => aupsert k ({} : TrackedMetrics) (fun m => { m with ResponseQuantiles := sec :: m.ResponseQuantiles }) ms)
      t.metrics }

/-- `Tracker.GetUpstreamMethodMetrics`: accessor for the exact triplet
(delegates to `getMetrics`, so it creates the record when absent). -/
def Tracker.GetUpstreamMethodMetrics (t : Tracker) (ups network method : String) :
    TrackedMetrics × Tracker :=
  t.getMetrics ⟨ups, network, method⟩

/-- `Tracker.GetNetworkMethodMetrics`: accessor for the network-wide record
`("*", network, method)` (also delegates to `getMetrics`). -/
def Tracker.GetNetworkMethodMetrics (t : Tracker) (network method : String) :
    TrackedMetrics × Tracker :=
  t.getMetrics ⟨"*", network, method⟩

/-- The `Range` in step 4 of `SetLatestBlockNumber` when a global advance
happened: for every metric key on the network, re-read that key's own
upstream mark (creating the metadata entry if absent, as `getMetadata` does),
skip non-positive marks, else overwrite the record's `BlockHeadLag`. -/
def Tracker.rangeLatest (network : String) (ntwBn : Int) :
    Tracker → List tripletKey → Tracker
  | t, [] => t
  | t, k :: rest =>
      if k.network = network then
        let t1 := t.ensureMetadata ⟨k.ups, network⟩
        let otherVal := t1.latestMark ⟨k.ups, network⟩
        if otherVal ≤ 0 then Tracker.rangeLatest network ntwBn t1 rest
        else
          Tracker.rangeLatest network ntwBn
            { t1 with
              metrics := aupdate k (fun m => { m with BlockHeadLag := ntwBn - otherVal }) t1.metrics }
            rest
      else Tracker.rangeLatest network ntwBn t rest

/-- The `Range` in `SetFinalizedBlockNumber` when a global advance happened. -/
def Tracker.rangeFinalized (network : String) (ntwVal : Int) :
    Tracker → List tripletKey → Tracker
  | t, [] => t
  | t, k :: rest =>
      if k.network = network then
        let t1 := t.ensureMetadata ⟨k.ups, k.network⟩
        let otherVal := t1.finalizedMark ⟨k.ups, k.network⟩
        if otherVal ≤ 0 then Tracker.rangeFinalized network ntwVal t1 rest
        else
          Tracker.rangeFinalized network ntwVal
            { t1 with
              metrics := aupdate k (fun m => { m with FinalizationLag := ntwVal - otherVal }) t1.metrics }
            rest
      else Tracker.rangeFinalized network ntwVal t rest

/-- `Tracker.SetLatestBlockNumber`, mirroring the source step by step:
drop non-positive samples; possibly advance the network watermark; possibly
advance the upstream watermark; abort if the network mark is still
non-positive; then either cascade over the whole network (global advance) or
overwrite only this upstream's records. -/
def Tracker.SetLatestBlockNumber (t : Tracker) (ups network : String) (blockNumber : Int) : Tracker :=
  if blockNumber ≤ 0 then t
  else
    let mdKey : duoKey := ⟨ups, network⟩
    let ntwMdKey : duoKey := ⟨"*", network⟩
    let t1 := t.ensureMetadata ntwMdKey
    let oldNtwVal := t1.latestMark ntwMdKey
    let needsGlobalUpdate := oldNtwVal < blockNumber
    let t2 := if needsGlobalUpdate then t1.storeLatest ntwMdKey blockNumber else t1
    let t3 := t2.ensureMetadata mdKey
    let oldUpsVal := t3.latestMark mdKey
    let t4 := if oldUpsVal < blockNumber then t3.storeLatest mdKey blockNumber else t3
    let ntwBn := t4.latestMark ntwMdKey
    if ntwBn ≤ 0 then t4
    else
      let upsLag := ntwBn - t4.latestMark mdKey
      if needsGlobalUpdate then
        Tracker.rangeLatest network ntwBn t4 (t4.metrics.map Prod.fst)
      else
        { t4 with
        metrics := aupdateWhere (fun k => k.ups == ups && k.network == network)
          (fun m => { m with BlockHeadLag := upsLag }) t4.metrics }

/-- `Tracker.SetFinalizedBlockNumber`, the structurally identical finalized
pipeline (the source fetches both metadata entries up front; reads are
through the store, so the order of the two ensures is immaterial). -/
def Tracker.SetFinalizedBlockNumber (t : Tracker) (ups network : String) (blockNumber : Int) : Tracker :=
  if blockNumber ≤ 0 then t
  else
    let mdKey : duoKey := ⟨ups, network⟩
    let ntwMdKey : duoKey := ⟨"*", network⟩
    let ta := t.ensureMetadata mdKey
    let tb := ta.ensureMetadata ntwMdKey
    let oldNtwVal := tb.finalizedMark ntwMdKey
    let needsGlobalUpdate := oldNtwVal < blockNumber
    let t2 := if needsGlobalUpdate then tb.storeFinalized ntwMdKey blockNumber else tb
    let oldUpsVal := t2.finalizedMark mdKey
    let t3 := if oldUpsVal < blockNumber then t2.storeFinalized mdKey blockNumber else t2
    let ntwVal := t3.finalizedMark ntwMdKey
    if ntwVal ≤ 0 then t3
    else
      let upsLag := ntwVal - t3.finalizedMark mdKey
      if needsGlobalUpdate then
        Tracker.rangeFinalized network ntwVal t3 (t3.metrics.map Prod.fst)
      else
        { t3 with
        metrics := aupdateWhere (fun k => k.ups == ups && k.network == network)
          (fun m => { m with FinalizationLag := upsLag }) t3.metrics }

/-- `Tracker.RecordBlockHeadLargeRollback`: store `currentVal - newVal` on
the `(ups, network, "")` record (the method component is Go's zero value). -/
def Tracker.RecordBlockHeadLargeRollback (t : Tracker) (ups network finality : String)
    (currentVal newVal : Int) : Tracker :=
  let rollback := currentVal - newVal
  { t with
    metrics := aupsert ⟨ups, network, ""⟩ ({} : TrackedMetrics)
      (fun m => { m with BlockHeadLargeRollback := rollback }) t.metrics }

/-- One tick of `resetMetricsLoop`: reset every existing record. -/
def Tracker.resetAll (t : Tracker) : Tracker :=
  { t with metrics := t.metrics.map fun e => (e.1, e.2.Reset) }

/-- The tracker's mutating operations, for stating reachability invariants. -/
inductive Op where
  | request (ups network method : String)
  | failure (ups network method : String)
  | selfRateLimited (ups network method : String)
  | remoteRateLimited (ups network method : String)
  | duration (ups network method : String) (sec : Rat)
  | cordon (ups network method reason : String)
  | uncordon (ups network method : String)
  | setLatest (ups network : String) (blockNumber : Int)
  | setFinalized (ups network : String) (blockNumber : Int)
  | largeRollback (ups network finality : String) (currentVal newVal : Int)
  | windowReset
  | readUpstreamMethod (ups network method : String)
  | readNetworkMethod (network method : String)

/-- Interpret one operation on the tracker state. -/
def Tracker.applyOp (t : Tracker) : Op → Tracker
  | .request u n m => t.RecordUpstreamRequest u n m
  | .failure u n m => t.RecordUpstreamFailure u n m
  | .selfRateLimited u n m => t.RecordUpstreamSelfRateLimited u n m
  | .remoteRateLimited u n m => t.RecordUpstreamRemoteRateLimited u n m
  | .duration u n m s => t.RecordUpstreamDuration u n m s
  | .cordon u n m r => t.Cordon u n m r
  | .uncordon u n m => t.Uncordon u n m
  | .setLatest u n b => t.SetLatestBlockNumber u n b
  | .setFinalized u n b => t.SetFinalizedBlockNumber u n b
  | .largeRollback u n f c v => t.RecordBlockHeadLargeRollback u n f c v
  | .windowReset => t.resetAll
  | .readUpstreamMethod u n m => (t.GetUpstreamMethodMetrics u n m).2
  | .readNetworkMethod n m => (t.GetNetworkMethodMetrics n m).2

/-- Interpret a sequential trace of operations. -/
def Tracker.applyOps (t : Tracker) (ops : List Op) : Tracker :=
  ops.foldl Tracker.applyOp t

/-- A trace condition for the watermark invariant: block-head observations
come from concrete upstreams, never from the reserved wildcard id. -/
def Op.latestConcrete : Op → Bool
  | .setLatest u _ _ => !(u == "*")
  | _ => true

/-- The metric-store keys an operation gets-or-creates: the five expansion
keys for each recorder, the exact key for cordon/uncordon and the read
accessors, and the `(ups, network, "")` key for the rollback recorder.  The
watermark setters and the window reset only update records that already
exist. -/
def Op.touches : Op → tripletKey → Prop
  | .request u n m, k => k ∈ getKeys u n m
  | .failure u n m, k => k ∈ getKeys u n m
  | .selfRateLimited u n m, k => k ∈ getKeys u n m
  | .remoteRateLimited u n m, k => k ∈ getKeys u n m
  | .duration u n m _, k => k ∈ getKeys u n m
  | .cordon u n m _, k => k = ⟨u, n, m⟩
  | .uncordon u n m, k => k = ⟨u, n, m⟩
  | .setLatest _ _ _, _ => False
  | .setFinalized _ _ _, _ => False
  | .largeRollback u n _ _ _, k => k = ⟨u, n, ""⟩
  | .windowReset, _ => False
  | .readUpstreamMethod u n m, k => k = ⟨u, n, m⟩
  | .readNetworkMethod n m, k => k = ⟨"*", n, m⟩

/-- The maximum of the strictly positive entries of the list, `0` when there
is none (the fold mirrors one `SetLatestBlockNumber` step per entry). -/
def posMax (xs : List Int) : Int :=
  xs.foldl (fun a x => if 0 < x then max a x else a) 0

/-- A sequence of latest-block observations for one `(ups, network)` pair. -/
def Tracker.applyLatestSeq (t : Tracker) (ups network : String) (xs : List Int) : Tracker :=
  xs.foldl (fun acc b => acc.SetLatestBlockNumber ups network b) t

/-- A sequence of finalized-block observations for one `(ups, network)` pair. -/
def Tracker.applyFinalizedSeq (t : Tracker) (ups network : String) (xs : List Int) : Tracker :=
  xs.foldl (fun acc b => acc.SetFinalizedBlockNumber ups network b) t

/-- A sequence of `recordRequest` (`true`) / `recordFailure` (`false`) calls
on a fixed triplet. -/
def Tracker.applyReqFail (t : Tracker) (ups network method : String) (ops : List Bool) : Tracker :=
  ops.foldl
    (fun acc isReq =>
      if isReq then acc.RecordUpstreamRequest ups network method
      else acc.RecordUpstreamFailure ups network method)
    t

/-- Every concrete upstream's latest watermark is bounded by the network
watermark. -/
def LatestBound (t : Tracker) : Prop :=
  ∀ u n : String, u ≠ "*" → t.latestMark ⟨u, n⟩ ≤ t.latestMark ⟨"*", n⟩

/-- The network latest watermark is `0` or is attained by some concrete
upstream's watermark. -/
def LatestAttained (t : Tracker) : Prop :=
  ∀ n : String, t.latestMark ⟨"*", n⟩ = 0 ∨
    ∃ u : String, u ≠ "*" ∧ t.latestMark ⟨u, n⟩ = t.latestMark ⟨"*", n⟩

/-! ### Association-list laws -/

theorem alookup_aupdate {α β : Type} [DecidableEq α] (k k' : α) (f : β → β)
    (l : List (α × β)) :
    alookup k (aupdate k' f l) = if k = k' then (alookup k l).map f else alookup k l := by
  induction l with
  | nil => simp [alookup, aupdate]
  | cons e rest ih =>
    obtain ⟨a, b⟩ := e
    by_cases h1 : k' = a
    · subst h1
      by_cases h2 : k = k' <;> simp [alookup, aupdate, h2, ih]
    · by_cases h2 : k = a
      · subst h2
        have : ¬(k = k') := fun h => h1 (h ▸ rfl)
        simp [alookup, aupdate, h1, this]
      · simp [alookup, aupdate, h1, h2, ih]

theorem alookup_aupsert {α β : Type} [DecidableEq α] (k k' : α) (d : β) (f : β → β)
    (l : List (α × β)) :
    alookup k (aupsert k' d f l) =
      if k = k' then some (f ((alookup k' l).getD d)) else alookup k l := by
  unfold aupsert
  cases h : alookup k' l with
  | some b =>
    rw [alookup_aupdate]
    by_cases h2 : k = k'
    · subst h2; simp [h]
    · simp [h2]
  | none =>
    by_cases h2 : k = k'
    · subst h2; simp [alookup, h]
    · simp [alookup, h2]

theorem alookup_aupdateWhere {α β : Type} [DecidableEq α] (p : α → Bool) (f : β → β)
    (l : List (α × β)) (k : α) :
    alookup k (aupdateWhere p f l) = if p k then (alookup k l).map f else alookup k l := by
  induction l with
  | nil => cases hp : p k <;> simp [alookup, aupdateWhere, hp]
  | cons e rest ih =>
    obtain ⟨a, b⟩ := e
    simp only [aupdateWhere, List.map_cons] at ih ⊢
    by_cases h2 : k = a
    · subst h2
      cases hp : p k <;> simp [alookup, hp]
    · cases hpa : p a <;> cases hp : p k <;>
        simp only [hpa, hp, if_true, if_false, alookup, h2, ite_false] <;>
        simpa [hp] using ih

theorem alookup_isSome_iff {α β : Type} [DecidableEq α] (k : α) (l : List (α × β)) :
    (alookup k l).isSome ↔ k ∈ l.map Prod.fst := by
  induction l with
  | nil => simp [alookup]
  | cons e rest ih =>
    obtain ⟨a, b⟩ := e
    by_cases h : k = a <;> simp [alookup, h, ih]

theorem alookup_foldl_aupsert {α β : Type} [DecidableEq α] (d : β) (f : β → β) :
    ∀ (ks : List α) (l : List (α × β)) (k : α), ks.Nodup →
      alookup k (ks.foldl (fun ms k' => aupsert k' d f ms) l) =
        if k ∈ ks then some (f ((alookup k l).getD d)) else alookup k l := by
  intro ks
  induction ks with
  | nil => intro l k _; simp
  | cons a rest ih =>
    intro l k hnd
    have hna : a ∉ rest := (List.nodup_cons.mp hnd).1
    have hrest : rest.Nodup := (List.nodup_cons.mp hnd).2
    simp only [List.foldl_cons]
    rw [ih (aupsert a d f l) k hrest]
    by_cases hk : k = a
    · subst hk
      rw [if_neg hna, alookup_aupsert, if_pos rfl, if_pos (List.mem_cons_self _ _)]
    · rw [alookup_aupsert, if_neg hk]
      by_cases hm : k ∈ rest <;> simp [hm, hk]

/-! ### Preservation facts for the tracker primitives -/

@[simp] theorem metrics_ensureMetadata (t : Tracker) (k : duoKey) :
    (t.ensureMetadata k).metrics = t.metrics := by
  unfold Tracker.ensureMetadata
  cases alookup k t.metadata <;> rfl

@[simp] theorem metrics_storeLatest (t : Tracker) (k : duoKey) (v : Int) :
    (t.storeLatest k v).metrics = t.metrics := rfl

@[simp] theorem metrics_storeFinalized (t : Tracker) (k : duoKey) (v : Int) :
    (t.storeFinalized k v).metrics = t.metrics := rfl

@[simp] theorem latestMark_ensureMetadata (t : Tracker) (k d : duoKey) :
    (t.ensureMetadata k).latestMark d = t.latestMark d := by
  unfold Tracker.ensureMetadata Tracker.latestMark
  cases h : alookup k t.metadata with
  | some nm => rfl
  | none =>
    by_cases hd : d = k
    · subst hd; simp [alookup, h]
    · simp [alookup, hd]

@[simp] theorem finalizedMark_ensureMetadata (t : Tracker) (k d : duoKey) :
    (t.ensureMetadata k).finalizedMark d = t.finalizedMark d := by
  unfold Tracker.ensureMetadata Tracker.finalizedMark
  cases h : alookup k t.metadata with
  | some nm => rfl
  | none =>
    by_cases hd : d = k
    · subst hd; simp [alookup, h]
    · simp [alookup, hd]

@[simp] theorem finalizedMark_storeLatest (t : Tracker) (k : duoKey) (v : Int) (d : duoKey) :
    (t.storeLatest k v).finalizedMark d = t.finalizedMark d := by
  unfold Tracker.storeLatest Tracker.finalizedMark
  simp only [alookup_aupdate]
  by_cases hd : d = k
  · subst hd; cases h : alookup d t.metadata <;> simp [h]
  · simp [hd]

@[simp] theorem latestMark_storeFinalized (t : Tracker) (k : duoKey) (v : Int) (d : duoKey) :
    (t.storeFinalized k v).latestMark d = t.latestMark d := by
  unfold Tracker.storeFinalized Tracker.latestMark
  simp only [alookup_aupdate]
  by_cases hd : d = k
  · subst hd; cases h : alookup d t.metadata <;> simp [h]
  · simp [hd]

theorem latestMark_storeLatest (t : Tracker) (k : duoKey) (v : Int) (d : duoKey)
    (h : (alookup k t.metadata).isSome) :
    (t.storeLatest k v).latestMark d = if d = k then v else t.latestMark d := by
  unfold Tracker.storeLatest Tracker.latestMark
  simp only [alookup_aupdate]
  by_cases hd : d = k
  · subst hd
    obtain ⟨nm, hnm⟩ := Option.isSome_iff_exists.mp h
    simp [hnm]
  · simp [hd]

theorem finalizedMark_storeFinalized (t : Tracker) (k : duoKey) (v : Int) (d : duoKey)
    (h : (alookup k t.metadata).isSome) :
    (t.storeFinalized k v).finalizedMark d = if d = k then v else t.finalizedMark d := by
  unfold Tracker.storeFinalized Tracker.finalizedMark
  simp only [alookup_aupdate]
  by_cases hd : d = k
  · subst hd
    obtain ⟨nm, hnm⟩ := Option.isSome_iff_exists.mp h
    simp [hnm]
  · simp [hd]

theorem isSome_metadata_ensure_self (t : Tracker) (k : duoKey) :
    (alookup k (t.ensureMetadata k).metadata).isSome := by
  unfold Tracker.ensureMetadata
  cases h : alookup k t.metadata with
  | some nm => simp [h]
  | none => simp [alookup]

theorem isSome_metadata_ensure_mono (t : Tracker) (k d : duoKey)
    (h : (alookup d t.metadata).isSome) :
    (alookup d (t.ensureMetadata k).metadata).isSome := by
  unfold Tracker.ensureMetadata
  cases hk : alookup k t.metadata with
  | some nm => simpa using h
  | none =>
    by_cases hd : d = k
    · subst hd; simp [alookup]
    · simpa [alookup, hd] using h

theorem isSome_metadata_store (t : Tracker) (k : duoKey) (v : Int) (d : duoKey) :
    (alookup d (t.storeLatest k v).metadata).isSome = (alookup d t.metadata).isSome := by
  unfold Tracker.storeLatest
  simp only [alookup_aupdate]
  by_cases hd : d = k <;> simp [hd]

theorem isSome_metadata_storeF (t : Tracker) (k : duoKey) (v : Int) (d : duoKey) :
    (alookup d (t.storeFinalized k v).metadata).isSome = (alookup d t.metadata).isSome := by
  unfold Tracker.storeFinalized
  simp only [alookup_aupdate]
  by_cases hd : d = k <;> simp [hd]

/-! ### Cascade characterization -/

@[simp] theorem latestMark_withMetrics (t : Tracker)
    (ms : List (tripletKey × TrackedMetrics)) (d : duoKey) :
    Tracker.latestMark { t with metrics := ms } d = t.latestMark d := rfl

@[simp] theorem finalizedMark_withMetrics (t : Tracker)
    (ms : List (tripletKey × TrackedMetrics)) (d : duoKey) :
    Tracker.finalizedMark { t with metrics := ms } d = t.finalizedMark d := rfl

theorem latestMark_rangeLatest (n : String) (v : Int) (d : duoKey) :
    ∀ (ks : List tripletKey) (t : Tracker),
      (Tracker.rangeLatest n v t ks).latestMark d = t.latestMark d := by
  intro ks
  induction ks with
  | nil => intro t; rfl
  | cons k rest ih =>
    intro t
    simp only [Tracker.rangeLatest]
    split_ifs with hn hv
    · rw [ih]; simp
    · rw [ih]; simp
    · rw [ih]

theorem finalizedMark_rangeLatest (n : String) (v : Int) (d : duoKey) :
    ∀ (ks : List tripletKey) (t : Tracker),
      (Tracker.rangeLatest n v t ks).finalizedMark d = t.finalizedMark d := by
  intro ks
  induction ks with
  | nil => intro t; rfl
  | cons k rest ih =>
    intro t
    simp only [Tracker.rangeLatest]
    split_ifs with hn hv
    · rw [ih]; simp
    · rw [ih]; simp
    · rw [ih]

theorem latestMark_rangeFinalized (n : String) (v : Int) (d : duoKey) :
    ∀ (ks : List tripletKey) (t : Tracker),
      (Tracker.rangeFinalized n v t ks).latestMark d = t.latestMark d := by
  intro ks
  induction ks with
  | nil => intro t; rfl
  | cons k rest ih =>
    intro t
    simp only [Tracker.rangeFinalized]
    split_ifs with hn hv
    · rw [ih]; simp
    · rw [ih]; simp
    · rw [ih]

theorem finalizedMark_rangeFinalized (n : String) (v : Int) (d : duoKey) :
    ∀ (ks : List tripletKey) (t : Tracker),
      (Tracker.rangeFinalized n v t ks).finalizedMark d = t.finalizedMark d := by
  intro ks
  induction ks with
  | nil => intro t; rfl
  | cons k rest ih =>
    intro t
    simp only [Tracker.rangeFinalized]
    split_ifs with hn hv
    · rw [ih]; simp
    · rw [ih]; simp
    · rw [ih]

theorem alookup_metrics_rangeLatest (n : String) (v : Int) :
    ∀ (ks : List tripletKey) (t : Tracker) (k : tripletKey),
      alookup k (Tracker.rangeLatest n v t ks).metrics =
        if k ∈ ks ∧ k.network = n ∧ 0 < t.latestMark ⟨k.ups, n⟩ then
          (alookup k t.metrics).map
            (fun m => { m with BlockHeadLag := v - t.latestMark ⟨k.ups, n⟩ })
        else alookup k t.metrics := by
  intro ks
  induction ks with
  | nil => intro t k; simp [Tracker.rangeLatest]
  | cons k0 rest ih =>
    intro t k
    simp only [Tracker.rangeLatest]
    by_cases hn0 : k0.network = n
    · rw [if_pos hn0]
      by_cases hv0 : (t.ensureMetadata ⟨k0.ups, n⟩).latestMark ⟨k0.ups, n⟩ ≤ 0
      · rw [if_pos hv0]
        rw [ih]
        simp only [latestMark_ensureMetadata, metrics_ensureMetadata] at hv0 ⊢
        by_cases hk : k = k0
        · subst hk
          have h1 : ¬(k ∈ rest ∧ k.network = n ∧ 0 < t.latestMark ⟨k.ups, n⟩) := by
            rintro ⟨-, -, h⟩; omega
          have h2 : ¬(k ∈ k :: rest ∧ k.network = n ∧ 0 < t.latestMark ⟨k.ups, n⟩) := by
            rintro ⟨-, -, h⟩; omega
          rw [if_neg h1, if_neg h2]
        · have hmem : (k ∈ k0 :: rest) ↔ (k ∈ rest) := by simp [List.mem_cons, hk]
          by_cases hc : k ∈ rest ∧ k.network = n ∧ 0 < t.latestMark ⟨k.ups, n⟩
          · rw [if_pos hc, if_pos ⟨hmem.mpr hc.1, hc.2⟩]
          · have hc2 : ¬(k ∈ k0 :: rest ∧ k.network = n ∧ 0 < t.latestMark ⟨k.ups, n⟩) := by
              rintro ⟨hm, h⟩; exact hc ⟨hmem.mp hm, h⟩
            rw [if_neg hc, if_neg hc2]
      · rw [if_neg hv0]
        rw [ih]
        simp only [latestMark_ensureMetadata, latestMark_withMetrics,
          metrics_ensureMetadata] at hv0 ⊢
        have hv0' : 0 < t.latestMark ⟨k0.ups, n⟩ := by omega
        by_cases hk : k = k0
        · subst hk
          have hcond : k ∈ k :: rest ∧ k.network = n ∧ 0 < t.latestMark ⟨k.ups, n⟩ := by
            exact ⟨by simp, hn0, hv0'⟩
          rw [if_pos hcond]
          rw [alookup_aupdate]
          by_cases hmem : k ∈ rest
          · rw [if_pos ⟨hmem, hn0, hv0'⟩, if_pos rfl]
            cases horig : alookup k t.metrics <;> simp
          · have : ¬(k ∈ rest ∧ k.network = n ∧ 0 < t.latestMark ⟨k.ups, n⟩) := by
              rintro ⟨hm, -⟩; exact hmem hm
            rw [if_neg this, if_pos rfl]
        · have hmem : (k ∈ k0 :: rest) ↔ (k ∈ rest) := by simp [List.mem_cons, hk]
          rw [alookup_aupdate, if_neg hk]
          by_cases hc : k ∈ rest ∧ k.network = n ∧ 0 < t.latestMark ⟨k.ups, n⟩
          · rw [if_pos hc, if_pos ⟨hmem.mpr hc.1, hc.2⟩]
          · have hc2 : ¬(k ∈ k0 :: rest ∧ k.network = n ∧ 0 < t.latestMark ⟨k.ups, n⟩) := by
              rintro ⟨hm, h⟩; exact hc ⟨hmem.mp hm, h⟩
            rw [if_neg hc, if_neg hc2]
    · rw [if_neg hn0]
      rw [ih]
      by_cases hk : k = k0
      · subst hk
        have h1 : ¬(k ∈ rest ∧ k.network = n ∧ 0 < t.latestMark ⟨k.ups, n⟩) := by
          rintro ⟨-, h, -⟩; exact hn0 h
        have h2 : ¬(k ∈ k :: rest ∧ k.network = n ∧ 0 < t.latestMark ⟨k.ups, n⟩) := by
          rintro ⟨-, h, -⟩; exact hn0 h
        rw [if_neg h1, if_neg h2]
      · have hmem : (k ∈ k0 :: rest) ↔ (k ∈ rest) := by simp [List.mem_cons, hk]
        by_cases hc : k ∈ rest ∧ k.network = n ∧ 0 < t.latestMark ⟨k.ups, n⟩
        · rw [if_pos hc, if_pos ⟨hmem.mpr hc.1, hc.2⟩]
        · have hc2 : ¬(k ∈ k0 :: rest ∧ k.network = n ∧ 0 < t.latestMark ⟨k.ups, n⟩) := by
            rintro ⟨hm, h⟩; exact hc ⟨hmem.mp hm, h⟩
          rw [if_neg hc, if_neg hc2]

theorem alookup_metrics_rangeFinalized (n : String) (v : Int) :
    ∀ (ks : List tripletKey) (t : Tracker) (k : tripletKey),
      alookup k (Tracker.rangeFinalized n v t ks).metrics =
        if k ∈ ks ∧ k.network = n ∧ 0 < t.finalizedMark ⟨k.ups, n⟩ then
          (alookup k t.metrics).map
            (fun m => { m with FinalizationLag := v - t.finalizedMark ⟨k.ups, n⟩ })
        else alookup k t.metrics := by
  intro ks
  induction ks with
  | nil => intro t k; simp [Tracker.rangeFinalized]
  | cons k0 rest ih =>
    intro t k
    simp only [Tracker.rangeFinalized]
    by_cases hn0 : k0.network = n
    · rw [if_pos hn0, hn0]
      by_cases hv0 : (t.ensureMetadata ⟨k0.ups, n⟩).finalizedMark ⟨k0.ups, n⟩ ≤ 0
      · rw [if_pos hv0]
        rw [ih]
        simp only [finalizedMark_ensureMetadata, metrics_ensureMetadata] at hv0 ⊢
        by_cases hk : k = k0
        · subst hk
          have h1 : ¬(k ∈ rest ∧ k.network = n ∧ 0 < t.finalizedMark ⟨k.ups, n⟩) := by
            rintro ⟨-, -, h⟩; omega
          have h2 : ¬(k ∈ k :: rest ∧ k.network = n ∧ 0 < t.finalizedMark ⟨k.ups, n⟩) := by
            rintro ⟨-, -, h⟩; omega
          rw [if_neg h1, if_neg h2]
        · have hmem : (k ∈ k0 :: rest) ↔ (k ∈ rest) := by simp [List.mem_cons, hk]
          by_cases hc : k ∈ rest ∧ k.network = n ∧ 0 < t.finalizedMark ⟨k.ups, n⟩
          · rw [if_pos hc, if_pos ⟨hmem.mpr hc.1, hc.2⟩]
          · have hc2 : ¬(k ∈ k0 :: rest ∧ k.network = n ∧ 0 < t.finalizedMark ⟨k.ups, n⟩) := by
              rintro ⟨hm, h⟩; exact hc ⟨hmem.mp hm, h⟩
            rw [if_neg hc, if_neg hc2]
      · rw [if_neg hv0]
        rw [ih]
        simp only [finalizedMark_ensureMetadata, finalizedMark_withMetrics,
          metrics_ensureMetadata] at hv0 ⊢
        have hv0' : 0 < t.finalizedMark ⟨k0.ups, n⟩ := by omega
        by_cases hk : k = k0
        · subst hk
          have hcond : k ∈ k :: rest ∧ k.network = n ∧ 0 < t.finalizedMark ⟨k.ups, n⟩ := by
            exact ⟨by simp, hn0, hv0'⟩
          rw [if_pos hcond]
          rw [alookup_aupdate]
          by_cases hmem : k ∈ rest
          · rw [if_pos ⟨hmem, hn0, hv0'⟩, if_pos rfl]
            cases horig : alookup k t.metrics <;> simp
          · have : ¬(k ∈ rest ∧ k.network = n ∧ 0 < t.finalizedMark ⟨k.ups, n⟩) := by
              rintro ⟨hm, -⟩; exact hmem hm
            rw [if_neg this, if_pos rfl]
        · have hmem : (k ∈ k0 :: rest) ↔ (k ∈ rest) := by simp [List.mem_cons, hk]
          rw [alookup_aupdate, if_neg hk]
          by_cases hc : k ∈ rest ∧ k.network = n ∧ 0 < t.finalizedMark ⟨k.ups, n⟩
          · rw [if_pos hc, if_pos ⟨hmem.mpr hc.1, hc.2⟩]
          · have hc2 : ¬(k ∈ k0 :: rest ∧ k.network = n ∧ 0 < t.finalizedMark ⟨k.ups, n⟩) := by
              rintro ⟨hm, h⟩; exact hc ⟨hmem.mp hm, h⟩
            rw [if_neg hc, if_neg hc2]
    · rw [if_neg hn0]
      rw [ih]
      by_cases hk : k = k0
      · subst hk
        have h1 : ¬(k ∈ rest ∧ k.network = n ∧ 0 < t.finalizedMark ⟨k.ups, n⟩) := by
          rintro ⟨-, h, -⟩; exact hn0 h
        have h2 : ¬(k ∈ k :: rest ∧ k.network = n ∧ 0 < t.finalizedMark ⟨k.ups, n⟩) := by
          rintro ⟨-, h, -⟩; exact hn0 h
        rw [if_neg h1, if_neg h2]
      · have hmem : (k ∈ k0 :: rest) ↔ (k ∈ rest) := by simp [List.mem_cons, hk]
        by_cases hc : k ∈ rest ∧ k.network = n ∧ 0 < t.finalizedMark ⟨k.ups, n⟩
        · rw [if_pos hc, if_pos ⟨hmem.mpr hc.1, hc.2⟩]
        · have hc2 : ¬(k ∈ k0 :: rest ∧ k.network = n ∧ 0 < t.finalizedMark ⟨k.ups, n⟩) := by
            rintro ⟨hm, h⟩; exact hc ⟨hmem.mp hm, h⟩
          rw [if_neg hc, if_neg hc2]

/-! ### Metadata store characterizations -/

theorem alookup_metadata_ensure (t : Tracker) (k d : duoKey) :
    alookup d (t.ensureMetadata k).metadata =
      if d = k then some ((alookup k t.metadata).getD {}) else alookup d t.metadata := by
  unfold Tracker.ensureMetadata
  cases h : alookup k t.metadata with
  | some nm =>
    by_cases hd : d = k
    · subst hd; simp [h]
    · simp [hd]
  | none =>
    by_cases hd : d = k
    · subst hd; simp [alookup, h]
    · simp [alookup, hd]

theorem alookup_metadata_storeLatest (t : Tracker) (k : duoKey) (v : Int) (d : duoKey) :
    alookup d (t.storeLatest k v).metadata =
      if d = k then
        (alookup k t.metadata).map (fun nm => { nm with evmLatestBlockNumber := v })
      else alookup d t.metadata := by
  unfold Tracker.storeLatest
  rw [alookup_aupdate]
  by_cases hd : d = k
  · subst hd; simp
  · simp [hd]

theorem alookup_metadata_storeFinalized (t : Tracker) (k : duoKey) (v : Int) (d : duoKey) :
    alookup d (t.storeFinalized k v).metadata =
      if d = k then
        (alookup k t.metadata).map (fun nm => { nm with evmFinalizedBlockNumber := v })
      else alookup d t.metadata := by
  unfold Tracker.storeFinalized
  rw [alookup_aupdate]
  by_cases hd : d = k
  · subst hd; simp
  · simp [hd]

/-! ### Watermark setters: cross-field and non-positive-sample facts -/

theorem SetLatest_nonpos (t : Tracker) (u n : String) (b : Int) (hb : b ≤ 0) :
    t.SetLatestBlockNumber u n b = t := by
  unfold Tracker.SetLatestBlockNumber
  rw [if_pos hb]

theorem SetFinalized_nonpos (t : Tracker) (u n : String) (b : Int) (hb : b ≤ 0) :
    t.SetFinalizedBlockNumber u n b = t := by
  unfold Tracker.SetFinalizedBlockNumber
  rw [if_pos hb]

theorem finalizedMark_SetLatest (t : Tracker) (u n : String) (b : Int) (d : duoKey) :
    (t.SetLatestBlockNumber u n b).finalizedMark d = t.finalizedMark d := by
  simp only [Tracker.SetLatestBlockNumber]
  split_ifs <;>
    simp [finalizedMark_rangeLatest, finalizedMark_ensureMetadata,
      finalizedMark_storeLatest, finalizedMark_withMetrics]

theorem latestMark_SetFinalized (t : Tracker) (u n : String) (b : Int) (d : duoKey) :
    (t.SetFinalizedBlockNumber u n b).latestMark d = t.latestMark d := by
  simp only [Tracker.SetFinalizedBlockNumber]
  split_ifs <;>
    simp [latestMark_rangeFinalized, latestMark_ensureMetadata,
      latestMark_storeFinalized, latestMark_withMetrics]

theorem latestMark_ensure_store (t : Tracker) (k : duoKey) (b : Int) (d : duoKey) :
    ((t.ensureMetadata k).storeLatest k b).latestMark d = if d = k then b else t.latestMark d := by
  rw [latestMark_storeLatest _ _ _ _ (isSome_metadata_ensure_self t k)]
  by_cases hd : d = k <;> simp [hd]

theorem finalizedMark_ensure_store (t : Tracker) (k : duoKey) (b : Int) (d : duoKey) :
    ((t.ensureMetadata k).storeFinalized k b).finalizedMark d =
      if d = k then b else t.finalizedMark d := by
  rw [finalizedMark_storeFinalized _ _ _ _ (isSome_metadata_ensure_self t k)]
  by_cases hd : d = k <;> simp [hd]

theorem latestMark_SetLatest (t : Tracker) (u n : String) (b : Int) (hb : 0 < b) (d : duoKey) :
    (t.SetLatestBlockNumber u n b).latestMark d =
      if d = ⟨"*", n⟩ then max (t.latestMark ⟨"*", n⟩) b
      else if d = ⟨u, n⟩ then max (t.latestMark ⟨u, n⟩) b
      else t.latestMark d := by
  have hnb : ¬ b ≤ 0 := not_le.mpr hb
  by_cases hu : u = "*"
  · subst hu
    by_cases h1 : t.latestMark ⟨"*", n⟩ < b
    · simp [Tracker.SetLatestBlockNumber, if_neg hnb, latestMark_ensure_store,
        latestMark_rangeLatest, latestMark_withMetrics, h1, hnb, hb]
      by_cases hd : d = (⟨"*", n⟩ : duoKey) <;> simp [hd] <;> omega
    · have hM0 : ¬ t.latestMark ⟨"*", n⟩ ≤ 0 := by omega
      simp [Tracker.SetLatestBlockNumber, if_neg hnb, latestMark_ensure_store,
        latestMark_rangeLatest, latestMark_withMetrics, h1, hnb, hb, hM0]
      by_cases hd : d = (⟨"*", n⟩ : duoKey) <;> simp [hd] <;> omega
  · have hu2 : ¬ "*" = u := fun h => hu h.symm
    by_cases h1 : t.latestMark ⟨"*", n⟩ < b <;>
      by_cases h2 : t.latestMark ⟨u, n⟩ < b
    · simp [Tracker.SetLatestBlockNumber, if_neg hnb, latestMark_ensure_store,
        latestMark_rangeLatest, latestMark_withMetrics, h1, h2, hu, hu2, hnb, hb,
        duoKey.mk.injEq]
      by_cases hdA : d = (⟨"*", n⟩ : duoKey) <;> by_cases hdB : d = (⟨u, n⟩ : duoKey) <;>
        first
        | exact absurd ((duoKey.mk.injEq _ _ _ _).mp (hdA.symm.trans hdB)).1.symm hu
        | simp [hdA, hdB, duoKey.mk.injEq, hu, hu2] <;> omega
    · simp [Tracker.SetLatestBlockNumber, if_neg hnb, latestMark_ensure_store,
        latestMark_rangeLatest, latestMark_withMetrics, h1, h2, hu, hu2, hnb, hb,
        duoKey.mk.injEq]
      by_cases hdA : d = (⟨"*", n⟩ : duoKey) <;> by_cases hdB : d = (⟨u, n⟩ : duoKey) <;>
        first
        | exact absurd ((duoKey.mk.injEq _ _ _ _).mp (hdA.symm.trans hdB)).1.symm hu
        | simp [hdA, hdB, duoKey.mk.injEq, hu, hu2] <;> omega
    · have hM0 : ¬ t.latestMark ⟨"*", n⟩ ≤ 0 := by omega
      simp [Tracker.SetLatestBlockNumber, if_neg hnb, latestMark_ensure_store,
        latestMark_rangeLatest, latestMark_withMetrics, h1, h2, hu, hu2, hnb, hb, hM0,
        duoKey.mk.injEq]
      by_cases hdA : d = (⟨"*", n⟩ : duoKey) <;> by_cases hdB : d = (⟨u, n⟩ : duoKey) <;>
        first
        | exact absurd ((duoKey.mk.injEq _ _ _ _).mp (hdA.symm.trans hdB)).1.symm hu
        | simp [hdA, hdB, duoKey.mk.injEq, hu, hu2] <;> omega
    · have hM0 : ¬ t.latestMark ⟨"*", n⟩ ≤ 0 := by omega
      simp [Tracker.SetLatestBlockNumber, if_neg hnb, latestMark_ensure_store,
        latestMark_rangeLatest, latestMark_withMetrics, h1, h2, hu, hu2, hnb, hb, hM0,
        duoKey.mk.injEq]
      by_cases hdA : d = (⟨"*", n⟩ : duoKey) <;> by_cases hdB : d = (⟨u, n⟩ : duoKey) <;>
        first
        | exact absurd ((duoKey.mk.injEq _ _ _ _).mp (hdA.symm.trans hdB)).1.symm hu
        | simp [hdA, hdB, duoKey.mk.injEq, hu, hu2] <;> omega

theorem finalizedMark_SetFinalized (t : Tracker) (u n : String) (b : Int) (hb : 0 < b)
    (d : duoKey) :
    (t.SetFinalizedBlockNumber u n b).finalizedMark d =
      if d = ⟨"*", n⟩ then max (t.finalizedMark ⟨"*", n⟩) b
      else if d = ⟨u, n⟩ then max (t.finalizedMark ⟨u, n⟩) b
      else t.finalizedMark d := by
  have hnb : ¬ b ≤ 0 := not_le.mpr hb
  by_cases hu : u = "*"
  · subst hu
    by_cases h1 : t.finalizedMark ⟨"*", n⟩ < b
    · simp [Tracker.SetFinalizedBlockNumber, if_neg hnb, finalizedMark_storeFinalized,
        finalizedMark_ensureMetadata, alookup_metadata_ensure, alookup_metadata_storeFinalized,
        finalizedMark_rangeFinalized, finalizedMark_withMetrics, h1, hnb, hb]
      by_cases hd : d = (⟨"*", n⟩ : duoKey) <;> simp [hd] <;> omega
    · have hM0 : ¬ t.finalizedMark ⟨"*", n⟩ ≤ 0 := by omega
      simp [Tracker.SetFinalizedBlockNumber, if_neg hnb, finalizedMark_storeFinalized,
        finalizedMark_ensureMetadata, alookup_metadata_ensure, alookup_metadata_storeFinalized,
        finalizedMark_rangeFinalized, finalizedMark_withMetrics, h1, hnb, hb, hM0]
      by_cases hd : d = (⟨"*", n⟩ : duoKey) <;> simp [hd] <;> omega
  · have hu2 : ¬ "*" = u := fun h => hu h.symm
    by_cases h1 : t.finalizedMark ⟨"*", n⟩ < b <;>
      by_cases h2 : t.finalizedMark ⟨u, n⟩ < b
    · simp [Tracker.SetFinalizedBlockNumber, if_neg hnb, finalizedMark_storeFinalized,
        finalizedMark_ensureMetadata, alookup_metadata_ensure, alookup_metadata_storeFinalized,
        finalizedMark_rangeFinalized, finalizedMark_withMetrics, h1, h2, hu, hu2, hnb, hb,
        duoKey.mk.injEq]
      by_cases hdA : d = (⟨"*", n⟩ : duoKey) <;> by_cases hdB : d = (⟨u, n⟩ : duoKey) <;>
        first
        | exact absurd ((duoKey.mk.injEq _ _ _ _).mp (hdA.symm.trans hdB)).1.symm hu
        | simp [hdA, hdB, duoKey.mk.injEq, hu, hu2] <;> omega
    · simp [Tracker.SetFinalizedBlockNumber, if_neg hnb, finalizedMark_storeFinalized,
        finalizedMark_ensureMetadata, alookup_metadata_ensure, alookup_metadata_storeFinalized,
        finalizedMark_rangeFinalized, finalizedMark_withMetrics, h1, h2, hu, hu2, hnb, hb,
        duoKey.mk.injEq]
      by_cases hdA : d = (⟨"*", n⟩ : duoKey) <;> by_cases hdB : d = (⟨u, n⟩ : duoKey) <;>
        first
        | exact absurd ((duoKey.mk.injEq _ _ _ _).mp (hdA.symm.trans hdB)).1.symm hu
        | simp [hdA, hdB, duoKey.mk.injEq, hu, hu2] <;> omega
    · have hM0 : ¬ t.finalizedMark ⟨"*", n⟩ ≤ 0 := by omega
      simp [Tracker.SetFinalizedBlockNumber, if_neg hnb, finalizedMark_storeFinalized,
        finalizedMark_ensureMetadata, alookup_metadata_ensure, alookup_metadata_storeFinalized,
        finalizedMark_rangeFinalized, finalizedMark_withMetrics, h1, h2, hu, hu2, hnb, hb,
        hM0, duoKey.mk.injEq]
      by_cases hdA : d = (⟨"*", n⟩ : duoKey) <;> by_cases hdB : d = (⟨u, n⟩ : duoKey) <;>
        first
        | exact absurd ((duoKey.mk.injEq _ _ _ _).mp (hdA.symm.trans hdB)).1.symm hu
        | simp [hdA, hdB, duoKey.mk.injEq, hu, hu2] <;> omega
    · have hM0 : ¬ t.finalizedMark ⟨"*", n⟩ ≤ 0 := by omega
      simp [Tracker.SetFinalizedBlockNumber, if_neg hnb, finalizedMark_storeFinalized,
        finalizedMark_ensureMetadata, alookup_metadata_ensure, alookup_metadata_storeFinalized,
        finalizedMark_rangeFinalized, finalizedMark_withMetrics, h1, h2, hu, hu2, hnb, hb,
        hM0, duoKey.mk.injEq]
      by_cases hdA : d = (⟨"*", n⟩ : duoKey) <;> by_cases hdB : d = (⟨u, n⟩ : duoKey) <;>
        first
        | exact absurd ((duoKey.mk.injEq _ _ _ _).mp (hdA.symm.trans hdB)).1.symm hu
        | simp [hdA, hdB, duoKey.mk.injEq, hu, hu2] <;> omega


theorem latestMark_ensure_store_ensure (t : Tracker) (k : duoKey) (b : Int) (k2 d : duoKey) :
    (((t.ensureMetadata k).storeLatest k b).ensureMetadata k2).latestMark d =
      if d = k then b else t.latestMark d := by
  rw [latestMark_ensureMetadata, latestMark_ensure_store]

set_option maxHeartbeats 1600000 in
theorem metrics_SetLatest_global (t : Tracker) (u n : String) (b : Int)
    (hb : 0 < b) (hM : t.latestMark ⟨"*", n⟩ < b) (k : tripletKey) :
    alookup k (t.SetLatestBlockNumber u n b).metrics =
      if k ∈ t.metrics.map Prod.fst ∧ k.network = n ∧
          0 < (t.SetLatestBlockNumber u n b).latestMark ⟨k.ups, n⟩ then
        (alookup k t.metrics).map
          (fun m => { m with BlockHeadLag :=
            b - (t.SetLatestBlockNumber u n b).latestMark ⟨k.ups, n⟩ })
      else alookup k t.metrics := by
  have hnb : ¬ b ≤ 0 := not_le.mpr hb
  have hMb : t.latestMark ⟨"*", n⟩ ⊔ b = b := sup_eq_right.mpr (le_of_lt hM)
  rw [latestMark_SetLatest t u n b hb ⟨k.ups, n⟩]
  by_cases hu : u = "*"
  · subst hu
    simp [Tracker.SetLatestBlockNumber, if_neg hnb, latestMark_ensure_store,
      metrics_ensureMetadata, metrics_storeLatest, alookup_metrics_rangeLatest,
      latestMark_rangeLatest, hM, hnb, hb, duoKey.mk.injEq]
    all_goals try rw [latestMark_ensure_store_ensure]
    all_goals (split_ifs with hc1 hc2 <;>
      by_cases hkA : k.ups = "*" <;>
        (try simp_all [duoKey.mk.injEq]) <;> omega)
  · have hu2 : ¬ "*" = u := fun h => hu h.symm
    by_cases h2 : t.latestMark ⟨u, n⟩ < b
    · have hUb : t.latestMark ⟨u, n⟩ ⊔ b = b := sup_eq_right.mpr (le_of_lt h2)
      simp [Tracker.SetLatestBlockNumber, if_neg hnb, latestMark_ensure_store,
        metrics_ensureMetadata, metrics_storeLatest, alookup_metrics_rangeLatest,
        latestMark_rangeLatest, hM, h2, hu, hu2, hnb, hb, duoKey.mk.injEq]
      all_goals try rw [latestMark_ensure_store, latestMark_ensure_store]
      all_goals (split_ifs with hc1 hc2 <;>
        by_cases hkA : k.ups = "*" <;> by_cases hkB : k.ups = u <;>
          (try simp_all [duoKey.mk.injEq]) <;> omega)
    · have hUb : t.latestMark ⟨u, n⟩ ⊔ b = t.latestMark ⟨u, n⟩ :=
        sup_eq_left.mpr (le_of_not_lt h2)
      simp [Tracker.SetLatestBlockNumber, if_neg hnb, latestMark_ensure_store,
        metrics_ensureMetadata, metrics_storeLatest, alookup_metrics_rangeLatest,
        latestMark_rangeLatest, hM, h2, hu, hu2, hnb, hb, duoKey.mk.injEq]
      all_goals try rw [latestMark_ensure_store_ensure]
      all_goals (split_ifs with hc1 hc2 <;>
        by_cases hkA : k.ups = "*" <;> by_cases hkB : k.ups = u <;>
          (try simp_all [duoKey.mk.injEq]) <;> omega)

set_option maxHeartbeats 1600000 in
theorem metrics_SetLatest_local (t : Tracker) (u n : String) (b : Int)
    (hb : 0 < b) (hM : b ≤ t.latestMark ⟨"*", n⟩) (k : tripletKey) :
    alookup k (t.SetLatestBlockNumber u n b).metrics =
      if k.ups = u ∧ k.network = n then
        (alookup k t.metrics).map
          (fun m =>
            { m with
              BlockHeadLag := t.latestMark ⟨"*", n⟩ -
                (t.SetLatestBlockNumber u n b).latestMark ⟨u, n⟩ })
      else alookup k t.metrics := by
  have hnb : ¬ b ≤ 0 := not_le.mpr hb
  have hM1 : ¬ t.latestMark ⟨"*", n⟩ < b := not_lt.mpr hM
  have hM0 : ¬ t.latestMark ⟨"*", n⟩ ≤ 0 := by omega
  have hMb : t.latestMark ⟨"*", n⟩ ⊔ b = t.latestMark ⟨"*", n⟩ := sup_eq_left.mpr hM
  rw [latestMark_SetLatest t u n b hb ⟨u, n⟩]
  by_cases hu : u = "*"
  · subst hu
    simp [Tracker.SetLatestBlockNumber, if_neg hnb, latestMark_ensureMetadata,
      latestMark_storeLatest, alookup_metadata_ensure, alookup_metadata_storeLatest,
      metrics_ensureMetadata, metrics_storeLatest, alookup_aupdateWhere,
      hM1, hM0, hMb, hnb, hb, duoKey.mk.injEq, Bool.and_eq_true, beq_iff_eq]
  · have hu2 : ¬ "*" = u := fun h => hu h.symm
    by_cases h2 : t.latestMark ⟨u, n⟩ < b
    · have hUb : t.latestMark ⟨u, n⟩ ⊔ b = b := sup_eq_right.mpr (le_of_lt h2)
      simp [Tracker.SetLatestBlockNumber, if_neg hnb, latestMark_ensureMetadata,
        latestMark_storeLatest, alookup_metadata_ensure, alookup_metadata_storeLatest,
        metrics_ensureMetadata, metrics_storeLatest, alookup_aupdateWhere,
        h2, hu, hu2, hM1, hM0, hMb, hUb, hnb, hb, duoKey.mk.injEq,
        Bool.and_eq_true, beq_iff_eq]
    · have hUb : t.latestMark ⟨u, n⟩ ⊔ b = t.latestMark ⟨u, n⟩ :=
        sup_eq_left.mpr (le_of_not_lt h2)
      simp [Tracker.SetLatestBlockNumber, if_neg hnb, latestMark_ensureMetadata,
        latestMark_storeLatest, alookup_metadata_ensure, alookup_metadata_storeLatest,
        metrics_ensureMetadata, metrics_storeLatest, alookup_aupdateWhere,
        h2, hu, hu2, hM1, hM0, hMb, hUb, hnb, hb, duoKey.mk.injEq,
        Bool.and_eq_true, beq_iff_eq]


theorem finalizedMark_ens_ens_store_store (t : Tracker) (kB kA : duoKey) (b : Int)
    (d : duoKey) :
    ((((t.ensureMetadata kB).ensureMetadata kA).storeFinalized kA b).storeFinalized
        kB b).finalizedMark d =
      if d = kB then b else if d = kA then b else t.finalizedMark d := by
  have hSA : (alookup kA ((t.ensureMetadata kB).ensureMetadata kA).metadata).isSome :=
    isSome_metadata_ensure_self _ _
  have hSB : (alookup kB
      (((t.ensureMetadata kB).ensureMetadata kA).storeFinalized kA b).metadata).isSome := by
    rw [isSome_metadata_storeF]
    exact isSome_metadata_ensure_mono _ _ _ (isSome_metadata_ensure_self _ _)
  rw [finalizedMark_storeFinalized _ _ _ _ hSB]
  by_cases hdB : d = kB
  · simp [hdB]
  · rw [if_neg hdB, if_neg hdB, finalizedMark_storeFinalized _ _ _ _ hSA]
    by_cases hdA : d = kA <;> simp [hdA, hdB]

theorem finalizedMark_ens_ens_store (t : Tracker) (kB kA : duoKey) (b : Int) (d : duoKey) :
    (((t.ensureMetadata kB).ensureMetadata kA).storeFinalized kA b).finalizedMark d =
      if d = kA then b else t.finalizedMark d := by
  rw [finalizedMark_storeFinalized _ _ _ _ (isSome_metadata_ensure_self _ _)]
  by_cases hdA : d = kA <;> simp [hdA]

theorem finalizedMark_ens_ens_storeB (t : Tracker) (kB kA : duoKey) (b : Int) (d : duoKey) :
    (((t.ensureMetadata kB).ensureMetadata kA).storeFinalized kB b).finalizedMark d =
      if d = kB then b else t.finalizedMark d := by
  have hSB : (alookup kB ((t.ensureMetadata kB).ensureMetadata kA).metadata).isSome :=
    isSome_metadata_ensure_mono _ _ _ (isSome_metadata_ensure_self _ _)
  rw [finalizedMark_storeFinalized _ _ _ _ hSB]
  by_cases hdB : d = kB <;> simp [hdB]

set_option maxHeartbeats 1600000 in
theorem metrics_SetFinalized_global (t : Tracker) (u n : String) (b : Int)
    (hb : 0 < b) (hM : t.finalizedMark ⟨"*", n⟩ < b) (k : tripletKey) :
    alookup k (t.SetFinalizedBlockNumber u n b).metrics =
      if k ∈ t.metrics.map Prod.fst ∧ k.network = n ∧
          0 < (t.SetFinalizedBlockNumber u n b).finalizedMark ⟨k.ups, n⟩ then
        (alookup k t.metrics).map
          (fun m => { m with FinalizationLag :=
            b - (t.SetFinalizedBlockNumber u n b).finalizedMark ⟨k.ups, n⟩ })
      else alookup k t.metrics := by
  have hnb : ¬ b ≤ 0 := not_le.mpr hb
  have hMb : t.finalizedMark ⟨"*", n⟩ ⊔ b = b := sup_eq_right.mpr (le_of_lt hM)
  rw [finalizedMark_SetFinalized t u n b hb ⟨k.ups, n⟩]
  by_cases hu : u = "*"
  · subst hu
    simp [Tracker.SetFinalizedBlockNumber, if_neg hnb, finalizedMark_storeFinalized,
      finalizedMark_ensureMetadata, alookup_metadata_ensure, alookup_metadata_storeFinalized,
      metrics_ensureMetadata, metrics_storeFinalized, alookup_metrics_rangeFinalized,
      finalizedMark_rangeFinalized, hM, hnb, hb, duoKey.mk.injEq]
    all_goals try rw [finalizedMark_ensureMetadata]
    all_goals try rw [finalizedMark_storeFinalized _ _ _ _
      (isSome_metadata_ensure_self _ _)]
    all_goals (split_ifs with hc1 hc2 <;>
      by_cases hkA : k.ups = "*" <;>
        (try simp_all [duoKey.mk.injEq]) <;> omega)
  · have hu2 : ¬ "*" = u := fun h => hu h.symm
    by_cases h2 : t.finalizedMark ⟨u, n⟩ < b
    · have hUb : t.finalizedMark ⟨u, n⟩ ⊔ b = b := sup_eq_right.mpr (le_of_lt h2)
      simp [Tracker.SetFinalizedBlockNumber, if_neg hnb, finalizedMark_storeFinalized,
        finalizedMark_ensureMetadata, alookup_metadata_ensure, alookup_metadata_storeFinalized,
        metrics_ensureMetadata, metrics_storeFinalized, alookup_metrics_rangeFinalized,
        finalizedMark_rangeFinalized, hM, h2, hu, hu2, hnb, hb, duoKey.mk.injEq]
      all_goals repeat rw [finalizedMark_ens_ens_store_store]
      all_goals repeat rw [finalizedMark_ens_ens_store]
      all_goals repeat rw [finalizedMark_ens_ens_storeB]
      all_goals (split_ifs with hc1 hc2 <;>
        by_cases hkA : k.ups = "*" <;> by_cases hkB : k.ups = u <;>
          (try simp_all [duoKey.mk.injEq]) <;> omega)
    · have hUb : t.finalizedMark ⟨u, n⟩ ⊔ b = t.finalizedMark ⟨u, n⟩ :=
        sup_eq_left.mpr (le_of_not_lt h2)
      simp [Tracker.SetFinalizedBlockNumber, if_neg hnb, finalizedMark_storeFinalized,
        finalizedMark_ensureMetadata, alookup_metadata_ensure, alookup_metadata_storeFinalized,
        metrics_ensureMetadata, metrics_storeFinalized, alookup_metrics_rangeFinalized,
        finalizedMark_rangeFinalized, hM, h2, hu, hu2, hnb, hb, duoKey.mk.injEq]
      all_goals repeat rw [finalizedMark_ens_ens_store_store]
      all_goals repeat rw [finalizedMark_ens_ens_store]
      all_goals repeat rw [finalizedMark_ens_ens_storeB]
      all_goals (split_ifs with hc1 hc2 <;>
        by_cases hkA : k.ups = "*" <;> by_cases hkB : k.ups = u <;>
          (try simp_all [duoKey.mk.injEq]) <;> omega)

set_option maxHeartbeats 1600000 in
theorem metrics_SetFinalized_local (t : Tracker) (u n : String) (b : Int)
    (hb : 0 < b) (hM : b ≤ t.finalizedMark ⟨"*", n⟩) (k : tripletKey) :
    alookup k (t.SetFinalizedBlockNumber u n b).metrics =
      if k.ups = u ∧ k.network = n then
        (alookup k t.metrics).map
          (fun m =>
            { m with
              FinalizationLag := t.finalizedMark ⟨"*", n⟩ -
                (t.SetFinalizedBlockNumber u n b).finalizedMark ⟨u, n⟩ })
      else alookup k t.metrics := by
  have hnb : ¬ b ≤ 0 := not_le.mpr hb
  have hM1 : ¬ t.finalizedMark ⟨"*", n⟩ < b := not_lt.mpr hM
  have hM0 : ¬ t.finalizedMark ⟨"*", n⟩ ≤ 0 := by omega
  have hMb : t.finalizedMark ⟨"*", n⟩ ⊔ b = t.finalizedMark ⟨"*", n⟩ := sup_eq_left.mpr hM
  rw [finalizedMark_SetFinalized t u n b hb ⟨u, n⟩]
  by_cases hu : u = "*"
  · subst hu
    simp [Tracker.SetFinalizedBlockNumber, if_neg hnb, finalizedMark_ensureMetadata,
      finalizedMark_storeFinalized, alookup_metadata_ensure, alookup_metadata_storeFinalized,
      metrics_ensureMetadata, metrics_storeFinalized, alookup_aupdateWhere,
      hM1, hM0, hMb, hnb, hb, duoKey.mk.injEq, Bool.and_eq_true, beq_iff_eq]
  · have hu2 : ¬ "*" = u := fun h => hu h.symm
    by_cases h2 : t.finalizedMark ⟨u, n⟩ < b
    · have hUb : t.finalizedMark ⟨u, n⟩ ⊔ b = b := sup_eq_right.mpr (le_of_lt h2)
      simp [Tracker.SetFinalizedBlockNumber, if_neg hnb, finalizedMark_ensureMetadata,
        finalizedMark_storeFinalized, alookup_metadata_ensure, alookup_metadata_storeFinalized,
        metrics_ensureMetadata, metrics_storeFinalized, alookup_aupdateWhere,
        h2, hu, hu2, hM1, hM0, hMb, hUb, hnb, hb, duoKey.mk.injEq,
        Bool.and_eq_true, beq_iff_eq]
    · have hUb : t.finalizedMark ⟨u, n⟩ ⊔ b = t.finalizedMark ⟨u, n⟩ :=
        sup_eq_left.mpr (le_of_not_lt h2)
      simp [Tracker.SetFinalizedBlockNumber, if_neg hnb, finalizedMark_ensureMetadata,
        finalizedMark_storeFinalized, alookup_metadata_ensure, alookup_metadata_storeFinalized,
        metrics_ensureMetadata, metrics_storeFinalized, alookup_aupdateWhere,
        h2, hu, hu2, hM1, hM0, hMb, hUb, hnb, hb, duoKey.mk.injEq,
        Bool.and_eq_true, beq_iff_eq]

/-! ### Record-operation effects -/

theorem getKeys_nodup (u n m : String) (hu : u ≠ "*") (hn : n ≠ "*") (hm : m ≠ "*") :
    (getKeys u n m).Nodup := by
  have hu2 : "*" ≠ u := Ne.symm hu
  have hn2 : "*" ≠ n := Ne.symm hn
  have hm2 : "*" ≠ m := Ne.symm hm
  simp [getKeys, List.nodup_cons, List.mem_cons, tripletKey.mk.injEq, hu, hn, hm,
    hu2, hn2, hm2]

theorem alookup_RecordUpstreamRequest (t : Tracker) (u n m : String)
    (hnd : (getKeys u n m).Nodup) (k : tripletKey) :
    alookup k (t.RecordUpstreamRequest u n m).metrics =
      if k ∈ getKeys u n m then
        some { (alookup k t.metrics).getD {} with
               RequestsTotal := ((alookup k t.metrics).getD {}).RequestsTotal + 1 }
      else alookup k t.metrics :=
  alookup_foldl_aupsert _ _ _ _ _ hnd

theorem alookup_RecordUpstreamFailure (t : Tracker) (u n m : String)
    (hnd : (getKeys u n m).Nodup) (k : tripletKey) :
    alookup k (t.RecordUpstreamFailure u n m).metrics =
      if k ∈ getKeys u n m then
        some { (alookup k t.metrics).getD {} with
               ErrorsTotal := ((alookup k t.metrics).getD {}).ErrorsTotal + 1 }
      else alookup k t.metrics :=
  alookup_foldl_aupsert _ _ _ _ _ hnd

theorem alookup_RecordUpstreamSelfRateLimited (t : Tracker) (u n m : String)
    (hnd : (getKeys u n m).Nodup) (k : tripletKey) :
    alookup k (t.RecordUpstreamSelfRateLimited u n m).metrics =
      if k ∈ getKeys u n m then
        some { (alookup k t.metrics).getD {} with
               SelfRateLimitedTotal := ((alookup k t.metrics).getD {}).SelfRateLimitedTotal + 1 }
      else alookup k t.metrics :=
  alookup_foldl_aupsert _ _ _ _ _ hnd

theorem alookup_RecordUpstreamRemoteRateLimited (t : Tracker) (u n m : String)
    (hnd : (getKeys u n m).Nodup) (k : tripletKey) :
    alookup k (t.RecordUpstreamRemoteRateLimited u n m).metrics =
      if k ∈ getKeys u n m then
        some { (alookup k t.metrics).getD {} with
               RemoteRateLimitedTotal := ((alookup k t.metrics).getD {}).RemoteRateLimitedTotal + 1 }
      else alookup k t.metrics :=
  alookup_foldl_aupsert _ _ _ _ _ hnd

/-! ### Claims -/

/-- Claim C1 (corrected at the large-rollback gauge): the claim as frozen says
`reset()` also zeroes the large-rollback gauge; the code's `Reset` never
stores to `BlockHeadLargeRollback`, so a record whose rollback gauge is `7`
keeps it after a reset. -/
theorem c1_counterexample :
    ¬ ((TrackedMetrics.Reset { BlockHeadLargeRollback := 7 }).BlockHeadLargeRollback = 0) := by
  decide

/-- Claim C1 (amended): for every Metric Record, `Reset` zeroes the request,
error, self-rate-limited and remote-rate-limited counters and both lag
gauges, empties the quantile accumulator, and unconditionally clears cordon
state (flag false, reason the empty string) — even if `cordon` ran earlier in
the window — while the large-rollback gauge is left unchanged, not zeroed. -/
theorem c1_reset_amended (m : TrackedMetrics) :
    (m.Reset).RequestsTotal = 0 ∧
    (m.Reset).ErrorsTotal = 0 ∧
    (m.Reset).SelfRateLimitedTotal = 0 ∧
    (m.Reset).RemoteRateLimitedTotal = 0 ∧
    (m.Reset).BlockHeadLag = 0 ∧
    (m.Reset).FinalizationLag = 0 ∧
    (m.Reset).ResponseQuantiles = [] ∧
    (m.Reset).Cordoned = false ∧
    (m.Reset).CordonedReason = some "" ∧
    (m.Reset).BlockHeadLargeRollback = m.BlockHeadLargeRollback :=
  ⟨rfl, rfl, rfl, rfl, rfl, rfl, rfl, rfl, rfl, rfl⟩

/-- Claim C8: a non-positive sample is a complete no-op for both watermark
setters — the tracker state is returned unchanged, so no metadata record is
created and no mark or lag gauge moves. -/
theorem c8_nonpositive_noop (t : Tracker) (u n : String) (b : Int) (hb : b ≤ 0) :
    t.SetLatestBlockNumber u n b = t ∧ t.SetFinalizedBlockNumber u n b = t :=
  ⟨SetLatest_nonpos t u n b hb, SetFinalized_nonpos t u n b hb⟩

/-- Witness for C8 at the spec scenario `observe("x","eth",-5)`. -/
theorem c8_witness :
    Tracker.empty.SetLatestBlockNumber "x" "eth" (-5) = Tracker.empty ∧
    Tracker.empty.SetFinalizedBlockNumber "x" "eth" (-5) = Tracker.empty :=
  c8_nonpositive_noop Tracker.empty "x" "eth" (-5) (by decide)

/-- Claim C7: each of the four recorders bumps its own counter by exactly one
on exactly the five expanded keys of a concrete triplet (creating the record
when absent, with every other field of that record untouched), and leaves the
record at every other key unchanged. -/
theorem c7_record_expansion (t : Tracker) (u n m : String)
    (hu : u ≠ "*") (hn : n ≠ "*") (hm : m ≠ "*") :
    ((∀ k ∈ getKeys u n m,
        alookup k (t.RecordUpstreamRequest u n m).metrics =
          some { (alookup k t.metrics).getD {} with
                 RequestsTotal := ((alookup k t.metrics).getD {}).RequestsTotal + 1 }) ∧
      ∀ k : tripletKey, k ∉ getKeys u n m →
        alookup k (t.RecordUpstreamRequest u n m).metrics = alookup k t.metrics) ∧
    ((∀ k ∈ getKeys u n m,
        alookup k (t.RecordUpstreamFailure u n m).metrics =
          some { (alookup k t.metrics).getD {} with
                 ErrorsTotal := ((alookup k t.metrics).getD {}).ErrorsTotal + 1 }) ∧
      ∀ k : tripletKey, k ∉ getKeys u n m →
        alookup k (t.RecordUpstreamFailure u n m).metrics = alookup k t.metrics) ∧
    ((∀ k ∈ getKeys u n m,
        alookup k (t.RecordUpstreamSelfRateLimited u n m).metrics =
          some { (alookup k t.metrics).getD {} with
                 SelfRateLimitedTotal := ((alookup k t.metrics).getD {}).SelfRateLimitedTotal + 1 }) ∧
      ∀ k : tripletKey, k ∉ getKeys u n m →
        alookup k (t.RecordUpstreamSelfRateLimited u n m).metrics = alookup k t.metrics) ∧
    ((∀ k ∈ getKeys u n m,
        alookup k (t.RecordUpstreamRemoteRateLimited u n m).metrics =
          some { (alookup k t.metrics).getD {} with
                 RemoteRateLimitedTotal := ((alookup k t.metrics).getD {}).RemoteRateLimitedTotal + 1 }) ∧
      ∀ k : tripletKey, k ∉ getKeys u n m →
        alookup k (t.RecordUpstreamRemoteRateLimited u n m).metrics = alookup k t.metrics) := by
  have hnd := getKeys_nodup u n m hu hn hm
  refine ⟨⟨?_, ?_⟩, ⟨?_, ?_⟩, ⟨?_, ?_⟩, ⟨?_, ?_⟩⟩ <;> intro k hk
  · rw [alookup_RecordUpstreamRequest t u n m hnd k, if_pos hk]
  · rw [alookup_RecordUpstreamRequest t u n m hnd k, if_neg hk]
  · rw [alookup_RecordUpstreamFailure t u n m hnd k, if_pos hk]
  · rw [alookup_RecordUpstreamFailure t u n m hnd k, if_neg hk]
  · rw [alookup_RecordUpstreamSelfRateLimited t u n m hnd k, if_pos hk]
  · rw [alookup_RecordUpstreamSelfRateLimited t u n m hnd k, if_neg hk]
  · rw [alookup_RecordUpstreamRemoteRateLimited t u n m hnd k, if_pos hk]
  · rw [alookup_RecordUpstreamRemoteRateLimited t u n m hnd k, if_neg hk]

/-- Witness for C7 on the concrete triplet `("x","eth","eth_call")`. -/
theorem c7_witness :
    alookup (⟨"x", "eth", "eth_call"⟩ : tripletKey)
        (Tracker.empty.RecordUpstreamRequest "x" "eth" "eth_call").metrics =
      some { (alookup (⟨"x", "eth", "eth_call"⟩ : tripletKey) Tracker.empty.metrics).getD {} with
             RequestsTotal := ((alookup (⟨"x", "eth", "eth_call"⟩ : tripletKey) Tracker.empty.metrics).getD {}).RequestsTotal + 1 } :=
  (c7_record_expansion Tracker.empty "x" "eth" "eth_call" (by decide) (by decide)
    (by decide)).1.1 ⟨"x", "eth", "eth_call"⟩ (by decide)

theorem counters_applyReqFail (u n m : String)
    (hu : u ≠ "*") (hn : n ≠ "*") (hm : m ≠ "*") :
    ∀ (ops : List Bool) (t : Tracker),
      ((alookup ⟨u, n, m⟩ (t.applyReqFail u n m ops).metrics).getD {}).RequestsTotal
        = ((alookup ⟨u, n, m⟩ t.metrics).getD {}).RequestsTotal + ops.count true ∧
      ((alookup ⟨u, n, m⟩ (t.applyReqFail u n m ops).metrics).getD {}).ErrorsTotal
        = ((alookup ⟨u, n, m⟩ t.metrics).getD {}).ErrorsTotal + ops.count false := by
  have hnd := getKeys_nodup u n m hu hn hm
  have hmem : (⟨u, n, m⟩ : tripletKey) ∈ getKeys u n m := by
    simp [getKeys]
  intro ops
  induction ops with
  | nil => intro t; simp [Tracker.applyReqFail]
  | cons op rest ih =>
    intro t
    cases op
    · have hstep : t.applyReqFail u n m (false :: rest) =
          (t.RecordUpstreamFailure u n m).applyReqFail u n m rest := by
        simp [Tracker.applyReqFail]
      rw [hstep]
      rcases ih (t.RecordUpstreamFailure u n m) with ⟨ihr, ihe⟩
      rw [ihr, ihe, alookup_RecordUpstreamFailure t u n m hnd _, if_pos hmem]
      refine ⟨?_, ?_⟩ <;> simp [List.count_cons] <;> omega
    · have hstep : t.applyReqFail u n m (true :: rest) =
          (t.RecordUpstreamRequest u n m).applyReqFail u n m rest := by
        simp [Tracker.applyReqFail]
      rw [hstep]
      rcases ih (t.RecordUpstreamRequest u n m) with ⟨ihr, ihe⟩
      rw [ihr, ihe, alookup_RecordUpstreamRequest t u n m hnd _, if_pos hmem]
      refine ⟨?_, ?_⟩ <;> simp [List.count_cons] <;> omega

/-- Claim C9: along any sequential sequence of `recordRequest` (`true`) and
`recordFailure` (`false`) calls on a fixed concrete triplet, the exact-key
record's counters equal the respective call counts, and `ErrorRate` equals
errors divided by requests when the request counter is positive and exactly
`0` when it is zero (no division by zero). -/
theorem c9_error_rate (u n m : String) (hu : u ≠ "*") (hn : n ≠ "*") (hm : m ≠ "*")
    (ops : List Bool) :
    ((alookup ⟨u, n, m⟩ (Tracker.empty.applyReqFail u n m ops).metrics).getD {}).RequestsTotal
      = (ops.count true : Int) ∧
    ((alookup ⟨u, n, m⟩ (Tracker.empty.applyReqFail u n m ops).metrics).getD {}).ErrorsTotal
      = (ops.count false : Int) ∧
    (((alookup ⟨u, n, m⟩ (Tracker.empty.applyReqFail u n m ops).metrics).getD {}).RequestsTotal = 0 →
      ((alookup ⟨u, n, m⟩ (Tracker.empty.applyReqFail u n m ops).metrics).getD {}).ErrorRate = 0) ∧
    (((alookup ⟨u, n, m⟩ (Tracker.empty.applyReqFail u n m ops).metrics).getD {}).RequestsTotal ≠ 0 →
      ((alookup ⟨u, n, m⟩ (Tracker.empty.applyReqFail u n m ops).metrics).getD {}).ErrorRate =
        (((alookup ⟨u, n, m⟩ (Tracker.empty.applyReqFail u n m ops).metrics).getD {}).ErrorsTotal : Rat) /
          (((alookup ⟨u, n, m⟩ (Tracker.empty.applyReqFail u n m ops).metrics).getD {}).RequestsTotal : Rat)) := by
  rcases counters_applyReqFail u n m hu hn hm ops Tracker.empty with ⟨hr, he⟩
  refine ⟨?_, ?_, ?_, ?_⟩
  · rw [hr]; simp [Tracker.empty, alookup]
  · rw [he]; simp [Tracker.empty, alookup]
  · intro h0
    unfold TrackedMetrics.ErrorRate
    rw [if_pos h0]
  · intro h0
    unfold TrackedMetrics.ErrorRate
    rw [if_neg h0]

/-- Witness for C9 on the sequence request, request, failure. -/
theorem c9_witness :
    ((alookup (⟨"x", "eth", "eth_call"⟩ : tripletKey)
        (Tracker.empty.applyReqFail "x" "eth" "eth_call" [true, true, false]).metrics).getD {}).RequestsTotal
      = 2 := by
  have h := (c9_error_rate "x" "eth" "eth_call" (by decide) (by decide) (by decide)
    [true, true, false]).1
  simpa using h

theorem IsCordoned_eq_or (t : Tracker) (u n m : String) :
    t.IsCordoned u n m =
      (((alookup (⟨u, n, "*"⟩ : tripletKey) t.metrics).map TrackedMetrics.Cordoned).getD false
       || ((alookup (⟨u, n, m⟩ : tripletKey) t.metrics).map TrackedMetrics.Cordoned).getD false) := by
  unfold Tracker.IsCordoned
  cases h1 : alookup (⟨u, n, "*"⟩ : tripletKey) t.metrics with
  | none =>
    cases h2 : alookup (⟨u, n, m⟩ : tripletKey) t.metrics with
    | none => simp
    | some tm2 => simp
  | some tm =>
    cases htm : tm.Cordoned with
    | true => simp [htm]
    | false =>
      cases h2 : alookup (⟨u, n, m⟩ : tripletKey) t.metrics with
      | none => simp [htm]
      | some tm2 => simp [htm]

/-- Claim C6 (corrected at the uncordon consequence): the precedence rule
holds as stated, `isCordoned` is true right after `cordon(u,n,"*",reason)`
for any method and right after `cordon(u,n,m,reason)` for `m` itself, and a
key with no record is never cordoned — but `isCordoned(u,n,m)` right after
`uncordon(u,n,m)` is `false` only when the wildcard record `(u,n,"*")` is not
itself cordoned (or `m` is `"*"`): a cordoned wildcard record takes
precedence over the just-uncordoned exact record. -/
theorem c6_cordon_semantics (t : Tracker) (u n m reason : String) :
    (t.IsCordoned u n m =
      (((alookup (⟨u, n, "*"⟩ : tripletKey) t.metrics).map TrackedMetrics.Cordoned).getD false
       || ((alookup (⟨u, n, m⟩ : tripletKey) t.metrics).map TrackedMetrics.Cordoned).getD false)) ∧
    ((t.Cordon u n m reason).IsCordoned u n m = true) ∧
    ((m = "*" ∨
        ((alookup (⟨u, n, "*"⟩ : tripletKey) t.metrics).map TrackedMetrics.Cordoned).getD false
          = false) →
      (t.Uncordon u n m).IsCordoned u n m = false) ∧
    (∀ m2 : String, (t.Cordon u n "*" reason).IsCordoned u n m2 = true) ∧
    (alookup (⟨u, n, "*"⟩ : tripletKey) t.metrics = none →
      alookup (⟨u, n, m⟩ : tripletKey) t.metrics = none →
      t.IsCordoned u n m = false) := by
  refine ⟨IsCordoned_eq_or t u n m, ?_, ?_, ?_, ?_⟩
  · rw [IsCordoned_eq_or]
    unfold Tracker.Cordon
    rw [alookup_aupsert, alookup_aupsert, if_pos rfl]
    by_cases hw : (⟨u, n, "*"⟩ : tripletKey) = ⟨u, n, m⟩
    · rw [if_pos hw]; simp
    · rw [if_neg hw]; simp
  · intro hside
    rw [IsCordoned_eq_or]
    unfold Tracker.Uncordon
    rw [alookup_aupsert, alookup_aupsert, if_pos rfl]
    by_cases hw : (⟨u, n, "*"⟩ : tripletKey) = ⟨u, n, m⟩
    · rw [if_pos hw]; simp
    · rw [if_neg hw]
      rcases hside with hm | hflag
      · exact absurd (by simp [tripletKey.mk.injEq, hm]) hw
      · simp [hflag]
  · intro m2
    rw [IsCordoned_eq_or]
    unfold Tracker.Cordon
    rw [alookup_aupsert, if_pos rfl]
    simp
  · intro h1 h2
    rw [IsCordoned_eq_or, h1, h2]
    rfl

/-- Witness for C6: after cordoning `("u","n","mm")` and then uncordoning it
(no wildcard cordon in the way), the key reads not cordoned. -/
theorem c6_witness :
    ((Tracker.empty.Cordon "u" "n" "mm" "r").Uncordon "u" "n" "mm").IsCordoned "u" "n" "mm"
      = false :=
  (c6_cordon_semantics (Tracker.empty.Cordon "u" "n" "mm" "r") "u" "n" "mm" "r").2.2.1
    (Or.inr (by decide))

/-- Claim C6 counterexample: the claim asserts `isCordoned(u,n,m)` is false
immediately after `uncordon(u,n,m)`; with the wildcard record `("u","n","*")`
cordoned beforehand, it is still true after `uncordon("u","n","mm")`. -/
theorem c6_counterexample :
    ((Tracker.empty.Cordon "u" "n" "*" "r").Uncordon "u" "n" "mm").IsCordoned "u" "n" "mm"
      = true := by
  decide

/-- Claim C3 counterexample: on a fresh tracker with no observations, reading
`GetUpstreamMethodMetrics` for a never-observed triplet leaves a record for
that triplet in the store — the accessor creates records as a side effect,
contradicting the claim that a record exists only after an observation and
that lookups never create records. -/
theorem c3_counterexample :
    alookup (⟨"u", "n", "m"⟩ : tripletKey)
        ((Tracker.empty.GetUpstreamMethodMetrics "u" "n" "m").2).metrics ≠ none := by
  decide

theorem isSome_aupsert {α β : Type} [DecidableEq α] (k k' : α) (d : β) (f : β → β)
    (l : List (α × β)) :
    (alookup k (aupsert k' d f l)).isSome ↔ ((alookup k l).isSome ∨ k = k') := by
  rw [alookup_aupsert]
  by_cases h : k = k' <;> simp [h]

theorem isSome_foldl_aupsert {α β : Type} [DecidableEq α] (d : β) (f : β → β) :
    ∀ (ks : List α) (l : List (α × β)) (k : α),
      (alookup k (ks.foldl (fun ms k' => aupsert k' d f ms) l)).isSome ↔
        ((alookup k l).isSome ∨ k ∈ ks) := by
  intro ks
  induction ks with
  | nil => intro l k; simp
  | cons a rest ih =>
    intro l k
    simp only [List.foldl_cons]
    rw [ih, isSome_aupsert, List.mem_cons]
    tauto

theorem alookup_map_values {α β : Type} [DecidableEq α] (f : β → β) :
    ∀ (l : List (α × β)) (k : α),
      alookup k (l.map fun e => (e.1, f e.2)) = (alookup k l).map f := by
  intro l
  induction l with
  | nil => intro k; rfl
  | cons e rest ih =>
    intro k
    obtain ⟨a, b⟩ := e
    by_cases h : k = a <;> simp [alookup, h, ih]

theorem isSome_metrics_SetLatest (t : Tracker) (u n : String) (b : Int) (k : tripletKey) :
    (alookup k (t.SetLatestBlockNumber u n b).metrics).isSome
      = (alookup k t.metrics).isSome := by
  by_cases hb : 0 < b
  · by_cases hM : t.latestMark ⟨"*", n⟩ < b
    · rw [metrics_SetLatest_global t u n b hb hM k]
      split_ifs <;> simp
    · rw [metrics_SetLatest_local t u n b hb (le_of_not_lt hM) k]
      split_ifs <;> simp
  · rw [SetLatest_nonpos t u n b (by omega)]

theorem isSome_metrics_SetFinalized (t : Tracker) (u n : String) (b : Int) (k : tripletKey) :
    (alookup k (t.SetFinalizedBlockNumber u n b).metrics).isSome
      = (alookup k t.metrics).isSome := by
  by_cases hb : 0 < b
  · by_cases hM : t.finalizedMark ⟨"*", n⟩ < b
    · rw [metrics_SetFinalized_global t u n b hb hM k]
      split_ifs <;> simp
    · rw [metrics_SetFinalized_local t u n b hb (le_of_not_lt hM) k]
      split_ifs <;> simp
  · rw [SetFinalized_nonpos t u n b (by omega)]

theorem isSome_getMetrics (t : Tracker) (k0 k : tripletKey) :
    (alookup k ((t.getMetrics k0).2).metrics).isSome ↔
      ((alookup k t.metrics).isSome ∨ k = k0) := by
  unfold Tracker.getMetrics
  cases h : alookup k0 t.metrics with
  | some tm =>
    by_cases hk : k = k0
    · subst hk; simp [h]
    · simp [hk]
  | none =>
    by_cases hk : k = k0
    · subst hk; simp [alookup, h]
    · simp [alookup, hk]

theorem isSome_metrics_applyOp (t : Tracker) (op : Op) (k : tripletKey) :
    (alookup k (t.applyOp op).metrics).isSome ↔
      ((alookup k t.metrics).isSome ∨ Op.touches op k) := by
  cases op with
  | request u n m => exact isSome_foldl_aupsert _ _ _ _ _
  | failure u n m => exact isSome_foldl_aupsert _ _ _ _ _
  | selfRateLimited u n m => exact isSome_foldl_aupsert _ _ _ _ _
  | remoteRateLimited u n m => exact isSome_foldl_aupsert _ _ _ _ _
  | duration u n m s => exact isSome_foldl_aupsert _ _ _ _ _
  | cordon u n m r => exact isSome_aupsert _ _ _ _ _
  | uncordon u n m => exact isSome_aupsert _ _ _ _ _
  | largeRollback u n f c v => exact isSome_aupsert _ _ _ _ _
  | setLatest u n b =>
    rw [show t.applyOp (Op.setLatest u n b) = t.SetLatestBlockNumber u n b from rfl,
      isSome_metrics_SetLatest]
    simp [Op.touches]
  | setFinalized u n b =>
    rw [show t.applyOp (Op.setFinalized u n b) = t.SetFinalizedBlockNumber u n b from rfl,
      isSome_metrics_SetFinalized]
    simp [Op.touches]
  | windowReset =>
    show (alookup k (t.resetAll).metrics).isSome ↔ _
    unfold Tracker.resetAll
    rw [show (t.metrics.map fun e => (e.1, e.2.Reset)) =
      (t.metrics.map fun e => (e.1, TrackedMetrics.Reset e.2)) from rfl]
    rw [alookup_map_values]
    simp [Op.touches]
  | readUpstreamMethod u n m => exact isSome_getMetrics t ⟨u, n, m⟩ k
  | readNetworkMethod n m => exact isSome_getMetrics t ⟨"*", n, m⟩ k

theorem metrics_exists_iff_touched :
    ∀ (ops : List Op) (t : Tracker) (k : tripletKey),
      (alookup k (t.applyOps ops).metrics).isSome ↔
        ((alookup k t.metrics).isSome ∨ ∃ op ∈ ops, Op.touches op k) := by
  intro ops
  induction ops with
  | nil => intro t k; simp [Tracker.applyOps]
  | cons op rest ih =>
    intro t k
    have hfold : t.applyOps (op :: rest) = (t.applyOp op).applyOps rest := by
      simp [Tracker.applyOps]
    rw [hfold, ih, isSome_metrics_applyOp]
    constructor
    · rintro ((h | h) | ⟨op2, hmem, hop⟩)
      · exact Or.inl h
      · exact Or.inr ⟨op, List.mem_cons_self _ _, h⟩
      · exact Or.inr ⟨op2, List.mem_cons_of_mem _ hmem, hop⟩
    · rintro (h | ⟨op2, hmem, hop⟩)
      · exact Or.inl (Or.inl h)
      · rcases List.mem_cons.mp hmem with he | hmm2
        · subst he; exact Or.inl (Or.inr hop)
        · exact Or.inr ⟨op2, hmm2, hop⟩

/-- Claim C3 (amended): the read accessors are get-or-create — looking up a
triplet with no record returns a fresh zero-valued record and inserts it into
the store as a side effect (both for the exact-triplet accessor and for the
network-wide accessor), while looking up an existing record returns it with
the store unchanged — and, over every operation trace from a fresh tracker,
a Metric Record exists for a key iff some operation of the trace touched
that key: an observation whose five-key expansion contains it, a
cordon/uncordon or read accessor on exactly it, or a rollback record on it;
the watermark setters and the window reset never create (or delete)
records. -/
theorem c3_accessor_creates (t : Tracker) (u n m : String) :
    (alookup (⟨u, n, m⟩ : tripletKey) t.metrics = none →
      (t.GetUpstreamMethodMetrics u n m).1 = ({} : TrackedMetrics) ∧
      alookup (⟨u, n, m⟩ : tripletKey) ((t.GetUpstreamMethodMetrics u n m).2).metrics
        = some ({} : TrackedMetrics)) ∧
    (∀ tm : TrackedMetrics, alookup (⟨u, n, m⟩ : tripletKey) t.metrics = some tm →
      t.GetUpstreamMethodMetrics u n m = (tm, t)) ∧
    (alookup (⟨"*", n, m⟩ : tripletKey) t.metrics = none →
      (t.GetNetworkMethodMetrics n m).1 = ({} : TrackedMetrics) ∧
      alookup (⟨"*", n, m⟩ : tripletKey) ((t.GetNetworkMethodMetrics n m).2).metrics
        = some ({} : TrackedMetrics)) ∧
    (∀ (ops : List Op) (k : tripletKey),
      (alookup k (Tracker.empty.applyOps ops).metrics).isSome ↔
        ∃ op ∈ ops, Op.touches op k) := by
  refine ⟨?_, ?_, ?_, ?_⟩
  · intro h
    unfold Tracker.GetUpstreamMethodMetrics Tracker.getMetrics
    rw [h]
    exact ⟨rfl, by simp [alookup]⟩
  · intro tm h
    unfold Tracker.GetUpstreamMethodMetrics Tracker.getMetrics
    rw [h]
  · intro h
    unfold Tracker.GetNetworkMethodMetrics Tracker.getMetrics
    rw [h]
    exact ⟨rfl, by simp [alookup]⟩
  · intro ops k
    rw [metrics_exists_iff_touched ops Tracker.empty k]
    simp [Tracker.empty, alookup]

/-- Witness for C3 (amended) on a fresh tracker. -/
theorem c3_witness :
    (Tracker.empty.GetUpstreamMethodMetrics "u" "n" "m").1 = ({} : TrackedMetrics) ∧
    alookup (⟨"u", "n", "m"⟩ : tripletKey)
        ((Tracker.empty.GetUpstreamMethodMetrics "u" "n" "m").2).metrics
      = some ({} : TrackedMetrics) :=
  (c3_accessor_creates Tracker.empty "u" "n" "m").1 (by decide)

/-! ### Watermark sequences -/

theorem latestMark_step (t : Tracker) (u n : String) (b : Int) :
    (t.SetLatestBlockNumber u n b).latestMark ⟨u, n⟩ =
      if 0 < b then max (t.latestMark ⟨u, n⟩) b else t.latestMark ⟨u, n⟩ := by
  by_cases hb : 0 < b
  · rw [latestMark_SetLatest t u n b hb ⟨u, n⟩, if_pos hb]
    by_cases hu : u = "*"
    · subst hu
      rw [if_pos rfl]
    · rw [if_neg (by simp [duoKey.mk.injEq, hu]), if_pos rfl]
  · rw [SetLatest_nonpos t u n b (by omega), if_neg hb]

theorem finalizedMark_step (t : Tracker) (u n : String) (b : Int) :
    (t.SetFinalizedBlockNumber u n b).finalizedMark ⟨u, n⟩ =
      if 0 < b then max (t.finalizedMark ⟨u, n⟩) b else t.finalizedMark ⟨u, n⟩ := by
  by_cases hb : 0 < b
  · rw [finalizedMark_SetFinalized t u n b hb ⟨u, n⟩, if_pos hb]
    by_cases hu : u = "*"
    · subst hu
      rw [if_pos rfl]
    · rw [if_neg (by simp [duoKey.mk.injEq, hu]), if_pos rfl]
  · rw [SetFinalized_nonpos t u n b (by omega), if_neg hb]

theorem latestMark_applyLatestSeq (u n : String) :
    ∀ (xs : List Int) (t : Tracker),
      (t.applyLatestSeq u n xs).latestMark ⟨u, n⟩ =
        xs.foldl (fun a x => if 0 < x then max a x else a) (t.latestMark ⟨u, n⟩) := by
  intro xs
  induction xs with
  | nil => intro t; rfl
  | cons x rest ih =>
    intro t
    have hstep : t.applyLatestSeq u n (x :: rest) =
        (t.SetLatestBlockNumber u n x).applyLatestSeq u n rest := by
      simp [Tracker.applyLatestSeq]
    rw [hstep, ih, List.foldl_cons, latestMark_step]

theorem finalizedMark_applyFinalizedSeq (u n : String) :
    ∀ (xs : List Int) (t : Tracker),
      (t.applyFinalizedSeq u n xs).finalizedMark ⟨u, n⟩ =
        xs.foldl (fun a x => if 0 < x then max a x else a) (t.finalizedMark ⟨u, n⟩) := by
  intro xs
  induction xs with
  | nil => intro t; rfl
  | cons x rest ih =>
    intro t
    have hstep : t.applyFinalizedSeq u n (x :: rest) =
        (t.SetFinalizedBlockNumber u n x).applyFinalizedSeq u n rest := by
      simp [Tracker.applyFinalizedSeq]
    rw [hstep, ih, List.foldl_cons, finalizedMark_step]

theorem posMax_fold_spec :
    ∀ (xs : List Int) (a : Int),
      a ≤ xs.foldl (fun a x => if 0 < x then max a x else a) a ∧
      (∀ x ∈ xs, 0 < x → x ≤ xs.foldl (fun a x => if 0 < x then max a x else a) a) ∧
      (xs.foldl (fun a x => if 0 < x then max a x else a) a = a ∨
        xs.foldl (fun a x => if 0 < x then max a x else a) a ∈ xs) ∧
      ((∀ x ∈ xs, x ≤ 0) → xs.foldl (fun a x => if 0 < x then max a x else a) a = a) := by
  intro xs
  induction xs with
  | nil => intro a; refine ⟨le_refl _, by simp, Or.inl rfl, fun _ => rfl⟩
  | cons y rest ih =>
    intro a
    rcases ih (if 0 < y then max a y else a) with ⟨h1, h2, h3, h4⟩
    simp only [List.foldl_cons]
    refine ⟨?_, ?_, ?_, ?_⟩
    · refine le_trans ?_ h1
      by_cases hy : 0 < y
      · rw [if_pos hy]; exact le_max_left _ _
      · rw [if_neg hy]
    · intro x hx hxpos
      rcases List.mem_cons.mp hx with hxy | hxr
      · subst hxy
        refine le_trans ?_ h1
        rw [if_pos hxpos]
        exact le_max_right _ _
      · exact h2 x hxr hxpos
    · rcases h3 with he | hm
      · rw [he]
        by_cases hy : 0 < y
        · rw [if_pos hy]
          rcases max_choice a y with hc | hc
          · exact Or.inl hc
          · exact Or.inr (by rw [hc]; exact List.mem_cons_self _ _)
        · rw [if_neg hy]
          exact Or.inl rfl
      · exact Or.inr (List.mem_cons_of_mem _ hm)
    · intro hall
      have hy : ¬ 0 < y := by
        have := hall y (List.mem_cons_self _ _)
        omega
      rw [if_neg hy] at h4 ⊢
      exact h4 fun x hx => hall x (List.mem_cons_of_mem _ hx)

theorem posMax_fold_perm {xs ys : List Int} (h : xs.Perm ys) :
    ∀ a : Int,
      xs.foldl (fun a x => if 0 < x then max a x else a) a =
        ys.foldl (fun a x => if 0 < x then max a x else a) a := by
  induction h with
  | nil => intro a; rfl
  | cons x _ ih => intro a; simp only [List.foldl_cons]; exact ih _
  | swap x y l =>
    intro a
    simp only [List.foldl_cons]
    have hsw : (if 0 < x then max (if 0 < y then max a y else a) x
                 else (if 0 < y then max a y else a)) =
        (if 0 < y then max (if 0 < x then max a x else a) y
         else (if 0 < x then max a x else a)) := by
      by_cases hx : 0 < x <;> by_cases hy : 0 < y <;>
        simp [hx, hy, sup_right_comm]
    rw [hsw]
  | trans _ _ ih1 ih2 => intro a; exact (ih1 a).trans (ih2 a)

/-- Claim C4: for any finite sequence of observations for one
`(upstream, network)` pair starting from a fresh tracker, the stored
latest-block mark equals the maximum of the strictly positive samples (`0`
when there is none, and the mark is an upper bound of the positive samples
and is itself one of them when nonzero); the result is the same for any
permutation of the sequence; the same holds for the finalized pipeline; and
a single sample never decreases either mark. -/
theorem c4_watermark_max (u n : String) (xs : List Int) :
    (Tracker.empty.applyLatestSeq u n xs).latestMark ⟨u, n⟩ = posMax xs ∧
    (Tracker.empty.applyFinalizedSeq u n xs).finalizedMark ⟨u, n⟩ = posMax xs ∧
    (∀ x ∈ xs, 0 < x → x ≤ posMax xs) ∧
    (posMax xs = 0 ∨ posMax xs ∈ xs) ∧
    ((∀ x ∈ xs, x ≤ 0) → posMax xs = 0) ∧
    (∀ ys : List Int, xs.Perm ys →
      (Tracker.empty.applyLatestSeq u n ys).latestMark ⟨u, n⟩ =
        (Tracker.empty.applyLatestSeq u n xs).latestMark ⟨u, n⟩) ∧
    (∀ (t : Tracker) (b : Int),
      t.latestMark ⟨u, n⟩ ≤ (t.SetLatestBlockNumber u n b).latestMark ⟨u, n⟩ ∧
      t.finalizedMark ⟨u, n⟩ ≤ (t.SetFinalizedBlockNumber u n b).finalizedMark ⟨u, n⟩) := by
  rcases posMax_fold_spec xs 0 with ⟨h1, h2, h3, h4⟩
  refine ⟨?_, ?_, h2, h3, h4, ?_, ?_⟩
  · rw [latestMark_applyLatestSeq]
    rfl
  · rw [finalizedMark_applyFinalizedSeq]
    rfl
  · intro ys hp
    rw [latestMark_applyLatestSeq, latestMark_applyLatestSeq]
    exact posMax_fold_perm hp.symm _
  · intro t b
    constructor
    · rw [latestMark_step]
      by_cases hb : 0 < b
      · rw [if_pos hb]; exact le_max_left _ _
      · rw [if_neg hb]
    · rw [finalizedMark_step]
      by_cases hb : 0 < b
      · rw [if_pos hb]; exact le_max_left _ _
      · rw [if_neg hb]

/-- Witness for C4 on the sequence `[3, -1, 2]` and its permutation
`[2, 3, -1]`. -/
theorem c4_witness :
    (Tracker.empty.applyLatestSeq "x" "eth" [3, -1, 2]).latestMark ⟨"x", "eth"⟩ =
      posMax [3, -1, 2] ∧
    (Tracker.empty.applyLatestSeq "x" "eth" [2, 3, -1]).latestMark ⟨"x", "eth"⟩ =
      (Tracker.empty.applyLatestSeq "x" "eth" [3, -1, 2]).latestMark ⟨"x", "eth"⟩ :=
  ⟨(c4_watermark_max "x" "eth" [3, -1, 2]).1,
   (c4_watermark_max "x" "eth" [3, -1, 2]).2.2.2.2.2.1 [2, 3, -1] (by decide)⟩

/-- Claim C10: when SetLatestBlockNumber causes a global advance on network
`n`, every already-existing record whose key has the wildcard upstream and
network `n` ends with block-head-lag exactly `0` (the wildcard duo key
resolves to the network mark itself); the same holds for the
finalization-lag gauge of those records during a global advance in
SetFinalizedBlockNumber. -/
theorem c10_wildcard_lag_zero (t : Tracker) (u n : String) (b : Int) (hb : 0 < b) :
    (t.latestMark ⟨"*", n⟩ < b →
      ∀ k : tripletKey, k ∈ t.metrics.map Prod.fst → k.ups = "*" → k.network = n →
        (alookup k (t.SetLatestBlockNumber u n b).metrics).map TrackedMetrics.BlockHeadLag
          = some 0) ∧
    (t.finalizedMark ⟨"*", n⟩ < b →
      ∀ k : tripletKey, k ∈ t.metrics.map Prod.fst → k.ups = "*" → k.network = n →
        (alookup k (t.SetFinalizedBlockNumber u n b).metrics).map TrackedMetrics.FinalizationLag
          = some 0) := by
  constructor
  · intro hM k hmem hku hkn
    have hmk : (t.SetLatestBlockNumber u n b).latestMark ⟨k.ups, n⟩ = b := by
      rw [hku, latestMark_SetLatest t u n b hb ⟨"*", n⟩, if_pos rfl]
      omega
    rw [metrics_SetLatest_global t u n b hb hM k, hmk, if_pos ⟨hmem, hkn, hb⟩]
    obtain ⟨tm, htm⟩ := Option.isSome_iff_exists.mp ((alookup_isSome_iff k t.metrics).mpr hmem)
    rw [htm]
    simp
  · intro hM k hmem hku hkn
    have hmk : (t.SetFinalizedBlockNumber u n b).finalizedMark ⟨k.ups, n⟩ = b := by
      rw [hku, finalizedMark_SetFinalized t u n b hb ⟨"*", n⟩, if_pos rfl]
      omega
    rw [metrics_SetFinalized_global t u n b hb hM k, hmk, if_pos ⟨hmem, hkn, hb⟩]
    obtain ⟨tm, htm⟩ := Option.isSome_iff_exists.mp ((alookup_isSome_iff k t.metrics).mpr hmem)
    rw [htm]
    simp

/-- Witness for C10: a request on `("A","n","m")` creates the rollup record
`("*","n","m")`; a later global advance to height 150 writes lag 0 there. -/
theorem c10_witness :
    (alookup (⟨"*", "n", "m"⟩ : tripletKey)
        ((Tracker.empty.RecordUpstreamRequest "A" "n" "m").SetLatestBlockNumber "B" "n" 150).metrics).map
      TrackedMetrics.BlockHeadLag = some 0 :=
  (c10_wildcard_lag_zero (Tracker.empty.RecordUpstreamRequest "A" "n" "m") "B" "n" 150
    (by decide)).1 (by decide) ⟨"*", "n", "m"⟩ (by decide) rfl rfl

/-- Claim C2: for a positive sample `b` on network `n`, if `b` exceeds the
stored network mark (global advance) then afterwards the network mark is `b`
and every already-existing record on network `n` carries lag
`b - (its own upstream's post-call mark)`, records whose upstream mark is
still non-positive being skipped and left fully unchanged; if `b` does not
exceed the network mark, only the reporting upstream's records on `n` get
their lag overwritten with `networkMark - (reporting upstream's post-call
mark)` and every other record is unchanged.  The same holds for
SetFinalizedBlockNumber with the finalization-lag gauge. -/
theorem c2_lag_cascade (t : Tracker) (u n : String) (b : Int) (hb : 0 < b) :
    ((t.latestMark ⟨"*", n⟩ < b →
      (t.SetLatestBlockNumber u n b).latestMark ⟨"*", n⟩ = b ∧
      ∀ k : tripletKey, k ∈ t.metrics.map Prod.fst → k.network = n →
        (0 < (t.SetLatestBlockNumber u n b).latestMark ⟨k.ups, n⟩ →
          (alookup k (t.SetLatestBlockNumber u n b).metrics).map TrackedMetrics.BlockHeadLag
            = some (b - (t.SetLatestBlockNumber u n b).latestMark ⟨k.ups, n⟩)) ∧
        ((t.SetLatestBlockNumber u n b).latestMark ⟨k.ups, n⟩ ≤ 0 →
          alookup k (t.SetLatestBlockNumber u n b).metrics = alookup k t.metrics)) ∧
     (b ≤ t.latestMark ⟨"*", n⟩ →
      ∀ k : tripletKey,
        (k.ups = u ∧ k.network = n →
          (alookup k (t.SetLatestBlockNumber u n b).metrics).map TrackedMetrics.BlockHeadLag
            = (alookup k t.metrics).map (fun _ => t.latestMark ⟨"*", n⟩ -
                (t.SetLatestBlockNumber u n b).latestMark ⟨u, n⟩)) ∧
        (¬(k.ups = u ∧ k.network = n) →
          alookup k (t.SetLatestBlockNumber u n b).metrics = alookup k t.metrics))) ∧
    ((t.finalizedMark ⟨"*", n⟩ < b →
      (t.SetFinalizedBlockNumber u n b).finalizedMark ⟨"*", n⟩ = b ∧
      ∀ k : tripletKey, k ∈ t.metrics.map Prod.fst → k.network = n →
        (0 < (t.SetFinalizedBlockNumber u n b).finalizedMark ⟨k.ups, n⟩ →
          (alookup k (t.SetFinalizedBlockNumber u n b).metrics).map TrackedMetrics.FinalizationLag
            = some (b - (t.SetFinalizedBlockNumber u n b).finalizedMark ⟨k.ups, n⟩)) ∧
        ((t.SetFinalizedBlockNumber u n b).finalizedMark ⟨k.ups, n⟩ ≤ 0 →
          alookup k (t.SetFinalizedBlockNumber u n b).metrics = alookup k t.metrics)) ∧
     (b ≤ t.finalizedMark ⟨"*", n⟩ →
      ∀ k : tripletKey,
        (k.ups = u ∧ k.network = n →
          (alookup k (t.SetFinalizedBlockNumber u n b).metrics).map TrackedMetrics.FinalizationLag
            = (alookup k t.metrics).map (fun _ => t.finalizedMark ⟨"*", n⟩ -
                (t.SetFinalizedBlockNumber u n b).finalizedMark ⟨u, n⟩)) ∧
        (¬(k.ups = u ∧ k.network = n) →
          alookup k (t.SetFinalizedBlockNumber u n b).metrics = alookup k t.metrics))) := by
  refine ⟨⟨?_, ?_⟩, ?_, ?_⟩
  · intro hM
    constructor
    · rw [latestMark_SetLatest t u n b hb ⟨"*", n⟩, if_pos rfl]
      omega
    · intro k hmem hkn
      constructor
      · intro hpos
        rw [metrics_SetLatest_global t u n b hb hM k, if_pos ⟨hmem, hkn, hpos⟩]
        obtain ⟨tm, htm⟩ :=
          Option.isSome_iff_exists.mp ((alookup_isSome_iff k t.metrics).mpr hmem)
        rw [htm]
        simp
      · intro hnp
        rw [metrics_SetLatest_global t u n b hb hM k]
        rw [if_neg (by rintro ⟨-, -, h⟩; omega)]
  · intro hM k
    constructor
    · rintro ⟨hku, hkn⟩
      rw [metrics_SetLatest_local t u n b hb hM k, if_pos ⟨hku, hkn⟩]
      cases alookup k t.metrics <;> simp
    · intro hne
      rw [metrics_SetLatest_local t u n b hb hM k, if_neg hne]
  · intro hM
    constructor
    · rw [finalizedMark_SetFinalized t u n b hb ⟨"*", n⟩, if_pos rfl]
      omega
    · intro k hmem hkn
      constructor
      · intro hpos
        rw [metrics_SetFinalized_global t u n b hb hM k, if_pos ⟨hmem, hkn, hpos⟩]
        obtain ⟨tm, htm⟩ :=
          Option.isSome_iff_exists.mp ((alookup_isSome_iff k t.metrics).mpr hmem)
        rw [htm]
        simp
      · intro hnp
        rw [metrics_SetFinalized_global t u n b hb hM k]
        rw [if_neg (by rintro ⟨-, -, h⟩; omega)]
  · intro hM k
    constructor
    · rintro ⟨hku, hkn⟩
      rw [metrics_SetFinalized_local t u n b hb hM k, if_pos ⟨hku, hkn⟩]
      cases alookup k t.metrics <;> simp
    · intro hne
      rw [metrics_SetFinalized_local t u n b hb hM k, if_neg hne]

/-- Witness for C2, the spec scenario: after `observe(A,n,100)` then
`observe(B,n,150)` the record `("A","n","m")` carries lag
`150 - markOf(A)` (= 50). -/
theorem c2_witness :
    (alookup (⟨"A", "n", "m"⟩ : tripletKey)
        (((Tracker.empty.RecordUpstreamRequest "A" "n" "m").SetLatestBlockNumber "A" "n" 100).SetLatestBlockNumber
          "B" "n" 150).metrics).map TrackedMetrics.BlockHeadLag
      = some (150 -
          (((Tracker.empty.RecordUpstreamRequest "A" "n" "m").SetLatestBlockNumber "A" "n" 100).SetLatestBlockNumber
            "B" "n" 150).latestMark ⟨"A", "n"⟩) :=
  (((c2_lag_cascade
      ((Tracker.empty.RecordUpstreamRequest "A" "n" "m").SetLatestBlockNumber "A" "n" 100)
      "B" "n" 150 (by decide)).1.1 (by decide)).2 ⟨"A", "n", "m"⟩ (by decide) rfl).1
    (by decide)

/-! ### The network-watermark invariant over operation traces -/

theorem metadata_getMetrics (t : Tracker) (k : tripletKey) :
    ((t.getMetrics k).2).metadata = t.metadata := by
  unfold Tracker.getMetrics
  cases alookup k t.metrics <;> rfl

theorem latestMark_metadata_congr {t1 t2 : Tracker} (h : t1.metadata = t2.metadata)
    (d : duoKey) : t1.latestMark d = t2.latestMark d := by
  unfold Tracker.latestMark
  rw [h]

theorem latest_inv_step (t : Tracker) (op : Op)
    (hB : LatestBound t) (hA : LatestAttained t) (hc : Op.latestConcrete op = true) :
    LatestBound (t.applyOp op) ∧ LatestAttained (t.applyOp op) := by
  have transport : ∀ t2 : Tracker, (∀ d, t2.latestMark d = t.latestMark d) →
      LatestBound t2 ∧ LatestAttained t2 := by
    intro t2 hm
    constructor
    · intro u n hu
      rw [hm, hm]
      exact hB u n hu
    · intro n
      rcases hA n with h0 | ⟨u, hu, he⟩
      · exact Or.inl (by rw [hm]; exact h0)
      · exact Or.inr ⟨u, hu, by rw [hm, hm]; exact he⟩
  cases op with
  | request u n m => exact transport _ fun d => rfl
  | failure u n m => exact transport _ fun d => rfl
  | selfRateLimited u n m => exact transport _ fun d => rfl
  | remoteRateLimited u n m => exact transport _ fun d => rfl
  | duration u n m s => exact transport _ fun d => rfl
  | cordon u n m r => exact transport _ fun d => rfl
  | uncordon u n m => exact transport _ fun d => rfl
  | largeRollback u n f c v => exact transport _ fun d => rfl
  | windowReset => exact transport _ fun d => rfl
  | readUpstreamMethod u n m =>
    exact transport _ fun d => latestMark_metadata_congr (metadata_getMetrics _ _) d
  | readNetworkMethod n m =>
    exact transport _ fun d => latestMark_metadata_congr (metadata_getMetrics _ _) d
  | setFinalized u n b => exact transport _ fun d => latestMark_SetFinalized t u n b d
  | setLatest u n b =>
    have hu : u ≠ "*" := by simpa [Op.latestConcrete] using hc
    by_cases hb : 0 < b
    · constructor
      · intro x nn hx
        show (t.SetLatestBlockNumber u n b).latestMark ⟨x, nn⟩ ≤
          (t.SetLatestBlockNumber u n b).latestMark ⟨"*", nn⟩
        rw [latestMark_SetLatest t u n b hb ⟨x, nn⟩, latestMark_SetLatest t u n b hb ⟨"*", nn⟩]
        by_cases hnn : nn = n
        · subst hnn
          have e1 : (⟨x, nn⟩ : duoKey) ≠ ⟨"*", nn⟩ := by simp [duoKey.mk.injEq, hx]
          rw [if_neg e1, if_pos rfl]
          by_cases hxu : x = u
          · subst hxu
            rw [if_pos rfl]
            exact max_le_max (hB x _ hx) (le_refl b)
          · have e2 : (⟨x, nn⟩ : duoKey) ≠ ⟨u, nn⟩ := by simp [duoKey.mk.injEq, hxu]
            rw [if_neg e2]
            exact le_trans (hB x _ hx) (le_max_left _ _)
        · have e1 : (⟨x, nn⟩ : duoKey) ≠ ⟨"*", n⟩ := by simp [duoKey.mk.injEq, hnn]
          have e2 : (⟨x, nn⟩ : duoKey) ≠ ⟨u, n⟩ := by simp [duoKey.mk.injEq, hnn]
          have e3 : (⟨"*", nn⟩ : duoKey) ≠ ⟨"*", n⟩ := by simp [duoKey.mk.injEq, hnn]
          have e4 : (⟨"*", nn⟩ : duoKey) ≠ ⟨u, n⟩ := by simp [duoKey.mk.injEq, hnn]
          rw [if_neg e1, if_neg e2, if_neg e3, if_neg e4]
          exact hB x _ hx
      · intro nn
        by_cases hnn : nn = n
        · subst hnn
          by_cases hadv : t.latestMark ⟨"*", nn⟩ < b
          · refine Or.inr ⟨u, hu, ?_⟩
            show (t.SetLatestBlockNumber u nn b).latestMark ⟨u, nn⟩ =
              (t.SetLatestBlockNumber u nn b).latestMark ⟨"*", nn⟩
            rw [latestMark_SetLatest t u nn b hb ⟨u, nn⟩,
              latestMark_SetLatest t u nn b hb ⟨"*", nn⟩]
            have e1 : (⟨u, nn⟩ : duoKey) ≠ ⟨"*", nn⟩ := by simp [duoKey.mk.injEq, hu]
            rw [if_neg e1, if_pos rfl, if_pos rfl]
            have hub : t.latestMark ⟨u, nn⟩ ≤ b := le_of_lt (lt_of_le_of_lt (hB u nn hu) hadv)
            rw [max_eq_right hub, max_eq_right (le_of_lt hadv)]
          · rcases hA nn with h0 | ⟨x, hx, he⟩
            · exfalso
              omega
            · refine Or.inr ⟨x, hx, ?_⟩
              show (t.SetLatestBlockNumber u nn b).latestMark ⟨x, nn⟩ =
                (t.SetLatestBlockNumber u nn b).latestMark ⟨"*", nn⟩
              rw [latestMark_SetLatest t u nn b hb ⟨x, nn⟩,
                latestMark_SetLatest t u nn b hb ⟨"*", nn⟩]
              have e1 : (⟨x, nn⟩ : duoKey) ≠ ⟨"*", nn⟩ := by simp [duoKey.mk.injEq, hx]
              rw [if_neg e1, if_pos rfl, max_eq_left (le_of_not_lt hadv)]
              by_cases hxu : x = u
              · subst hxu
                rw [if_pos rfl, he, max_eq_left (le_of_not_lt hadv)]
              · have e2 : (⟨x, nn⟩ : duoKey) ≠ ⟨u, nn⟩ := by simp [duoKey.mk.injEq, hxu]
                rw [if_neg e2, he]
        · rcases hA nn with h0 | ⟨x, hx, he⟩
          · refine Or.inl ?_
            show (t.SetLatestBlockNumber u n b).latestMark ⟨"*", nn⟩ = 0
            rw [latestMark_SetLatest t u n b hb ⟨"*", nn⟩]
            have e3 : (⟨"*", nn⟩ : duoKey) ≠ ⟨"*", n⟩ := by simp [duoKey.mk.injEq, hnn]
            have e4 : (⟨"*", nn⟩ : duoKey) ≠ ⟨u, n⟩ := by simp [duoKey.mk.injEq, hnn]
            rw [if_neg e3, if_neg e4]
            exact h0
          · refine Or.inr ⟨x, hx, ?_⟩
            show (t.SetLatestBlockNumber u n b).latestMark ⟨x, nn⟩ =
              (t.SetLatestBlockNumber u n b).latestMark ⟨"*", nn⟩
            rw [latestMark_SetLatest t u n b hb ⟨x, nn⟩,
              latestMark_SetLatest t u n b hb ⟨"*", nn⟩]
            have e1 : (⟨x, nn⟩ : duoKey) ≠ ⟨"*", n⟩ := by simp [duoKey.mk.injEq, hnn]
            have e2 : (⟨x, nn⟩ : duoKey) ≠ ⟨u, n⟩ := by simp [duoKey.mk.injEq, hnn]
            have e3 : (⟨"*", nn⟩ : duoKey) ≠ ⟨"*", n⟩ := by simp [duoKey.mk.injEq, hnn]
            have e4 : (⟨"*", nn⟩ : duoKey) ≠ ⟨u, n⟩ := by simp [duoKey.mk.injEq, hnn]
            rw [if_neg e1, if_neg e2, if_neg e3, if_neg e4]
            exact he
    · have heq : t.SetLatestBlockNumber u n b = t := SetLatest_nonpos t u n b (by omega)
      show LatestBound (t.SetLatestBlockNumber u n b) ∧
        LatestAttained (t.SetLatestBlockNumber u n b)
      rw [heq]
      exact ⟨hB, hA⟩

theorem latest_inv_applyOps :
    ∀ (ops : List Op) (t : Tracker), LatestBound t → LatestAttained t →
      ops.all Op.latestConcrete = true →
      LatestBound (t.applyOps ops) ∧ LatestAttained (t.applyOps ops) := by
  intro ops
  induction ops with
  | nil => intro t hB hA _; exact ⟨hB, hA⟩
  | cons op rest ih =>
    intro t hB hA hall
    rw [List.all_cons, Bool.and_eq_true] at hall
    have hstep := latest_inv_step t op hB hA hall.1
    have hfold : t.applyOps (op :: rest) = (t.applyOp op).applyOps rest := by
      simp [Tracker.applyOps]
    rw [hfold]
    exact ih _ hstep.1 hstep.2 hall.2

theorem latestBound_empty : LatestBound Tracker.empty := fun _ _ _ => le_refl _

theorem latestAttained_empty : LatestAttained Tracker.empty := fun _ => Or.inl rfl

/-- Claim C5: in every state reachable by a sequential trace of operations
(with block-head observations coming from concrete upstreams), the wildcard
duo key's latest mark is the maximum across concrete upstreams' marks for
each network — every concrete mark is bounded by it and it is `0` or
attained by some concrete upstream — and consequently, whenever a call
advances the network mark (global advance), the reporting upstream's own
mark is set in that same call to that same new maximum value. -/
theorem c5_network_watermark_invariant (ops : List Op)
    (h : ops.all Op.latestConcrete = true) (n : String) :
    (∀ u : String, u ≠ "*" →
      (Tracker.empty.applyOps ops).latestMark ⟨u, n⟩ ≤
        (Tracker.empty.applyOps ops).latestMark ⟨"*", n⟩) ∧
    ((Tracker.empty.applyOps ops).latestMark ⟨"*", n⟩ = 0 ∨
      ∃ u : String, u ≠ "*" ∧
        (Tracker.empty.applyOps ops).latestMark ⟨u, n⟩ =
          (Tracker.empty.applyOps ops).latestMark ⟨"*", n⟩) ∧
    (∀ (u : String) (b : Int), u ≠ "*" → 0 < b →
      (Tracker.empty.applyOps ops).latestMark ⟨"*", n⟩ < b →
        ((Tracker.empty.applyOps ops).SetLatestBlockNumber u n b).latestMark ⟨u, n⟩ = b ∧
        ((Tracker.empty.applyOps ops).SetLatestBlockNumber u n b).latestMark ⟨"*", n⟩ = b) := by
  obtain ⟨hB, hA⟩ :=
    latest_inv_applyOps ops Tracker.empty latestBound_empty latestAttained_empty h
  refine ⟨fun u hu => hB u n hu, hA n, ?_⟩
  intro u b hu hb hadv
  constructor
  · rw [latestMark_SetLatest _ u n b hb ⟨u, n⟩]
    have e1 : (⟨u, n⟩ : duoKey) ≠ ⟨"*", n⟩ := by simp [duoKey.mk.injEq, hu]
    rw [if_neg e1, if_pos rfl]
    exact max_eq_right (le_of_lt (lt_of_le_of_lt (hB u n hu) hadv))
  · rw [latestMark_SetLatest _ u n b hb ⟨"*", n⟩, if_pos rfl]
    exact max_eq_right (le_of_lt hadv)

/-- Witness for C5 on the trace request(A), observe(A,100), observe(B,150). -/
theorem c5_witness :
    (Tracker.empty.applyOps
        [Op.request "A" "n" "m", Op.setLatest "A" "n" 100,
          Op.setLatest "B" "n" 150]).latestMark ⟨"A", "n"⟩ ≤
      (Tracker.empty.applyOps
        [Op.request "A" "n" "m", Op.setLatest "A" "n" 100,
          Op.setLatest "B" "n" 150]).latestMark ⟨"*", "n"⟩ :=
  (c5_network_watermark_invariant
    [Op.request "A" "n" "m", Op.setLatest "A" "n" 100, Op.setLatest "B" "n" 150]
    (by decide) "n").1 "A" (by decide)

end Health
